import Mathlib

/-!
Verification development for the foodcourt-sim simulation engine.

The Python sources are shallowly embedded: enums become inductive types,
dataclasses become structures/inductives, mutating methods become pure
functions returning the updated value, and raising code returns Except.
Each definition carries a doc comment naming the source function it embeds.
The repository snapshot ships a stale prototype models.py; the helpers that
simulator.py and modules.py import from the real models.py (Position.shift_by,
Direction rotations, RelativeDirection, MoveEntity, State.queue_move) are not
in the sources and are modelled from the spec, as marked on each of them.
-/

namespace FoodcourtSim

/-- Embeds enums.OperationId (enums.py). Constructor order matches the
auto() enum values, so the derived Ord agrees with the Python ordering. -/
inductive OperationId where
  | COOK_FRYER
  | COOK_MICROWAVE
  | COOK_GRILL
  | DOCK
  | FLATTEN
  | DISPENSE_FLUID
  | DISPENSE_FLUID_MIXED
  | COAT_FLUID
  | DISPENSE_TOPPING
deriving DecidableEq, Ord, Repr

/-- Embeds enums.ToppingId (enums.py); constructor order matches auto() values. -/
inductive ToppingId where
  | CHEESE
  | RED
  | WHITE
  | TOMATO
  | MINT
  | YOGURT
  | CHOCO
  | VANILLA
  | COLA
  | BERRY
  | CANDY
  | BREADING
  | VODKA
  | WHISKY
  | LEMON
  | MAC
  | SLAW
  | GREENS
  | BEANS
  | LEAVES
  | COFFEE
  | SAUCE
  | MEAT
  | VEGGIE
  | MILK
  | WATER
  | FOAM
  | ORANGE
  | PURPLE
  | SOUP
deriving DecidableEq, Ord, Repr, Fintype

/-- Embeds enums.EntityId (enums.py); constructor order matches auto() values. -/
inductive EntityId where
  | TRAY
  | MULTITRAY
  | NACHO
  | PRETZEL
  | POCKET
  | GLASS
  | DOUGH
  | CONE
  | PELMENI
  | CUP
  | LID
  | CHICKEN
  | CHICKEN_HALF
  | CHICKEN_CUTLET
  | CHICKEN_LEG
  | WING_PLACEHOLDER
  | ROAST
  | ROAST_SLICE
  | RIBS
  | RIBS_SLICE
  | ICE
  | MEAT
  | BOWL
  | PAPER
  | CIGARETTE_4X
  | CIGARETTE_2X
  | CIGARETTE
  | PIZZA
  | BURGER
  | TENDER
  | CORNDOG
  | CURLY
  | CRINKLE
  | TOT
  | PLAIN
  | CHOCO
  | BUN
  | BUN_TOP
  | BUN_BOTTOM
  | CHEESE
  | PICKLE
  | TOMATO
  | EGG
  | BACON
  | BANGER
  | FUNGUS
  | BLACK
  | BREAD
  | POTATO
  | ONION
  | NORI
  | RICE
  | TUNA
  | SALMON
  | PLATE
  | TUNA_MAKI_4X
  | TUNA_MAKI_2X
  | TUNA_MAKI
  | SALMON_MAKI_4X
  | SALMON_MAKI_2X
  | SALMON_MAKI
deriving DecidableEq, Ord, Repr

/-- Embeds enums.LevelId (enums.py). -/
inductive LevelId where
  | TWO_TWELVE
  | HOT_POCKET
  | WINE_OCLOCK
  | MUMBAI_CHAAT
  | MR_CHILLY
  | KAZAN
  | SODA_TRENCH
  | ROSIES_DOUGHNUTS
  | ON_THE_FRIED_SIDE
  | SWEET_HEAT_BBQ
  | THE_WALRUS
  | MEAT_3
  | CAFE_TRISTE
  | THE_COMMISSARY
  | DA_WINGS
  | BREAKSIDE_GRILL
  | CHAZ_CHEDDAR
  | HALF_CAFF_COFFEE
  | MILDREDS_NOOK
  | BELLYS
  | SUSHI_YEAH
deriving DecidableEq, Repr

/-- Embeds operations.Operation and its subclasses (operations.py):
op mirrors the plain Operation dataclass, dispense mirrors Dispense, and
dispenseMixed mirrors the private mixed-dispense class whose id is always
DISPENSE_FLUID_MIXED and whose toppings are canonically ordered at
construction, so the derived structural equality matches the Python
field-wise equality of the frozen dataclasses. -/
inductive Operation where
  | op (id : OperationId)
  | dispense (id : OperationId) (topping : ToppingId)
  | dispenseMixed (topping : ToppingId) (topping_2 : ToppingId)
deriving DecidableEq, Ord, Repr

/-- Embeds operations.CookFryer (operations.py). -/
def CookFryer : Operation := .op .COOK_FRYER

/-- Embeds operations.CookMicrowave (operations.py). -/
def CookMicrowave : Operation := .op .COOK_MICROWAVE

/-- Embeds operations.CookGrill (operations.py). -/
def CookGrill : Operation := .op .COOK_GRILL

/-- Embeds operations.DispenseFluid (operations.py). -/
def DispenseFluid (topping : ToppingId) : Operation := .dispense .DISPENSE_FLUID topping

/-- Embeds operations.CoatFluid (operations.py). -/
def CoatFluid (topping : ToppingId) : Operation := .dispense .COAT_FLUID topping

/-- Embeds operations.DispenseTopping (operations.py). -/
def DispenseTopping (topping : ToppingId) : Operation := .dispense .DISPENSE_TOPPING topping

/-- Modelled from the spec: integer grid Position (column, row); the real
models.py with this class is not in the snapshot (the shipped models.py is a
stale prototype). Spec section 3. -/
structure Position where
  column : Int
  row : Int
deriving DecidableEq, Repr

/-- Modelled from the spec: the 4-way Direction enum (spec section 3);
missing from the snapshot together with its rotation helpers. -/
inductive Direction where
  | RIGHT
  | UP
  | DOWN
  | LEFT
deriving DecidableEq, Repr

/-- Modelled from the spec: relative-direction classification values
(FRONT, RIGHT, BACK, LEFT); imported by modules.py from the missing models.py. -/
inductive RelativeDirection where
  | FRONT
  | RIGHT
  | BACK
  | LEFT
deriving DecidableEq, Repr

/-- Modelled from the spec: counterclockwise rotation Direction.left(). -/
def Direction.left : Direction → Direction
  | .RIGHT => .UP
  | .UP => .LEFT
  | .LEFT => .DOWN
  | .DOWN => .RIGHT

/-- Modelled from the spec: clockwise rotation Direction.right(). -/
def Direction.right : Direction → Direction
  | .RIGHT => .DOWN
  | .DOWN => .LEFT
  | .LEFT => .UP
  | .UP => .RIGHT

/-- Modelled from the spec: Direction.back(), the opposite direction. -/
def Direction.back : Direction → Direction
  | .RIGHT => .LEFT
  | .LEFT => .RIGHT
  | .UP => .DOWN
  | .DOWN => .UP

/-- Modelled from the spec: Direction.relative_to(base) classifies this
direction relative to a base facing: the facing itself is FRONT, its left
rotation LEFT, its right rotation RIGHT, and its opposite BACK. -/
def Direction.relative_to (d base : Direction) : RelativeDirection :=
  if d = base then .FRONT
  else if d = base.left then .LEFT
  else if d = base.right then .RIGHT
  else .BACK

/-- Modelled from the spec: Position.shift_by(direction) returns the adjacent
position one cell away.  The main input sits on the top row (row 6, facing
DOWN) and the output on the bottom row (row 0, facing DOWN, exiting at
row -1), so DOWN decrements the row and UP increments it; RIGHT increments
the column, LEFT decrements it. -/
def Position.shift_by (p : Position) (d : Direction) : Position :=
  match d with
  | .RIGHT => ⟨p.column + 1, p.row⟩
  | .LEFT => ⟨p.column - 1, p.row⟩
  | .UP => ⟨p.column, p.row + 1⟩
  | .DOWN => ⟨p.column, p.row - 1⟩

/-- Embeds the exclusion list defining entities._TRAY_WHITELIST
(entities.py lines 17-37): the whitelist is every EntityId except these. -/
def trayWhitelistExcluded : List EntityId :=
  [.LID, .ROAST, .RIBS, .ICE, .PAPER, .CIGARETTE_4X, .CIGARETTE_2X, .POTATO,
   .ONION, .NORI, .RICE, .TUNA, .SALMON, .TUNA_MAKI_4X, .TUNA_MAKI_2X,
   .TUNA_MAKI, .SALMON_MAKI_4X, .SALMON_MAKI_2X, .SALMON_MAKI]

/-- Embeds entities._BURGER_PARTS (entities.py lines 39-47). -/
def burgerParts : List EntityId :=
  [.BUN, .BUN_BOTTOM, .BUN_TOP, .MEAT, .CHEESE, .PICKLE, .TOMATO]

/-- Embeds the lookup entities._STACK_WHITELIST.get(base, set())
(entities.py lines 48-57): which entity ids may be stacked onto a base of the
given id; ids absent from the dict give the empty set. -/
def stackWhitelist (base : EntityId) (other : EntityId) : Bool :=
  match base with
  | .TRAY => !trayWhitelistExcluded.contains other
  | .MULTITRAY => !trayWhitelistExcluded.contains other
  | .CUP => [EntityId.LID, .ICE, .POTATO, .ONION].contains other
  | .BUN => burgerParts.contains other
  | .BUN_BOTTOM => burgerParts.contains other
  | .BUN_TOP => burgerParts.contains other
  | .MEAT => burgerParts.contains other
  | .CHEESE => burgerParts.contains other
  | .PICKLE => burgerParts.contains other
  | .TOMATO => burgerParts.contains other
  | .NORI => [EntityId.RICE].contains other
  | .RICE => [EntityId.TUNA, .SALMON].contains other
  | .BOWL => [EntityId.RICE].contains other
  | .PLATE => [EntityId.TUNA_MAKI, .SALMON_MAKI, .RICE].contains other
  | _ => false

/-- Embeds the Entity class hierarchy of entities.py as one inductive value
tree.  basic embeds the plain Entity dataclass (id, ordered operations,
optional single stacked child); multi embeds MultiStackEntity and its
subclasses Multitray (id MULTITRAY), Nori (id NORI, capacity 2), SushiPlate
(id PLATE, dynamic capacity) and SushiBowl (id BOWL, capacity 2), whose stack
field is forced to None and which instead carry a bounded multistack list;
burger embeds Burger (id BUN_BOTTOM, order-sensitive multistack); chaatDough
embeds ChaatDough (id DOUGH, with a sauce set) and pizzaDough embeds
PizzaDough (id DOUGH, with left/right topping sets).  Python sets are
modelled as lists compared through the canonical sorted deduplication below.
The position field lives in the floor state, not in the entity value, and
subtypes not exercised by the claims (Cup, PaintableCup, WingPlaceholder)
are outside the modelled scope. -/
inductive Entity where
  | basic (id : EntityId) (operations : List Operation) (stack : Option Entity)
  | multi (id : EntityId) (operations : List Operation) (multistack : List Entity)
      (capacity : Nat)
  | burger (operations : List Operation) (multistack : List Entity)
  | chaatDough (operations : List Operation) (stack : Option Entity)
      (sauces : List ToppingId)
  | pizzaDough (operations : List Operation) (stack : Option Entity)
      (leftToppings : List ToppingId) (rightToppings : List ToppingId)

mutual

/-- Decidable syntactic equality of entity trees (the derive handler does not
support the nested lists, so it is spelled out). -/
def Entity.decEq : (a b : Entity) → Decidable (a = b)
  | .basic i1 o1 s1, .basic i2 o2 s2 =>
    if h1 : i1 = i2 then
      if h2 : o1 = o2 then
        match Entity.decEqOpt s1 s2 with
        | isTrue h3 => isTrue (by rw [h1, h2, h3])
        | isFalse h3 => isFalse (fun h => h3 (by cases h; rfl))
      else isFalse (fun h => h2 (by cases h; rfl))
    else isFalse (fun h => h1 (by cases h; rfl))
  | .multi i1 o1 m1 c1, .multi i2 o2 m2 c2 =>
    if h1 : i1 = i2 then
      if h2 : o1 = o2 then
        if h4 : c1 = c2 then
          match Entity.decEqList m1 m2 with
          | isTrue h3 => isTrue (by rw [h1, h2, h3, h4])
          | isFalse h3 => isFalse (fun h => h3 (by cases h; rfl))
        else isFalse (fun h => h4 (by cases h; rfl))
      else isFalse (fun h => h2 (by cases h; rfl))
    else isFalse (fun h => h1 (by cases h; rfl))
  | .burger o1 m1, .burger o2 m2 =>
    if h2 : o1 = o2 then
      match Entity.decEqList m1 m2 with
      | isTrue h3 => isTrue (by rw [h2, h3])
      | isFalse h3 => isFalse (fun h => h3 (by cases h; rfl))
    else isFalse (fun h => h2 (by cases h; rfl))
  | .chaatDough o1 s1 x1, .chaatDough o2 s2 x2 =>
    if h2 : o1 = o2 then
      if h4 : x1 = x2 then
        match Entity.decEqOpt s1 s2 with
        | isTrue h3 => isTrue (by rw [h2, h3, h4])
        | isFalse h3 => isFalse (fun h => h3 (by cases h; rfl))
      else isFalse (fun h => h4 (by cases h; rfl))
    else isFalse (fun h => h2 (by cases h; rfl))
  | .pizzaDough o1 s1 l1 r1, .pizzaDough o2 s2 l2 r2 =>
    if h2 : o1 = o2 then
      if h4 : l1 = l2 then
        if h5 : r1 = r2 then
          match Entity.decEqOpt s1 s2 with
          | isTrue h3 => isTrue (by rw [h2, h3, h4, h5])
          | isFalse h3 => isFalse (fun h => h3 (by cases h; rfl))
        else isFalse (fun h => h5 (by cases h; rfl))
      else isFalse (fun h => h4 (by cases h; rfl))
    else isFalse (fun h => h2 (by cases h; rfl))
  | .basic _ _ _, .multi _ _ _ _ => isFalse (fun h => nomatch h)
  | .basic _ _ _, .burger _ _ => isFalse (fun h => nomatch h)
  | .basic _ _ _, .chaatDough _ _ _ => isFalse (fun h => nomatch h)
  | .basic _ _ _, .pizzaDough _ _ _ _ => isFalse (fun h => nomatch h)
  | .multi _ _ _ _, .basic _ _ _ => isFalse (fun h => nomatch h)
  | .multi _ _ _ _, .burger _ _ => isFalse (fun h => nomatch h)
  | .multi _ _ _ _, .chaatDough _ _ _ => isFalse (fun h => nomatch h)
  | .multi _ _ _ _, .pizzaDough _ _ _ _ => isFalse (fun h => nomatch h)
  | .burger _ _, .basic _ _ _ => isFalse (fun h => nomatch h)
  | .burger _ _, .multi _ _ _ _ => isFalse (fun h => nomatch h)
  | .burger _ _, .chaatDough _ _ _ => isFalse (fun h => nomatch h)
  | .burger _ _, .pizzaDough _ _ _ _ => isFalse (fun h => nomatch h)
  | .chaatDough _ _ _, .basic _ _ _ => isFalse (fun h => nomatch h)
  | .chaatDough _ _ _, .multi _ _ _ _ => isFalse (fun h => nomatch h)
  | .chaatDough _ _ _, .burger _ _ => isFalse (fun h => nomatch h)
  | .chaatDough _ _ _, .pizzaDough _ _ _ _ => isFalse (fun h => nomatch h)
  | .pizzaDough _ _ _ _, .basic _ _ _ => isFalse (fun h => nomatch h)
  | .pizzaDough _ _ _ _, .multi _ _ _ _ => isFalse (fun h => nomatch h)
  | .pizzaDough _ _ _ _, .burger _ _ => isFalse (fun h => nomatch h)
  | .pizzaDough _ _ _ _, .chaatDough _ _ _ => isFalse (fun h => nomatch h)

/-- Decidable equality for an optional stacked child. -/
def Entity.decEqOpt : (a b : Option Entity) → Decidable (a = b)
  | none, none => isTrue rfl
  | none, some _ => isFalse (fun h => nomatch h)
  | some _, none => isFalse (fun h => nomatch h)
  | some x, some y =>
    match Entity.decEq x y with
    | isTrue h => isTrue (by rw [h])
    | isFalse h => isFalse (fun hh => h (by cases hh; rfl))

/-- Decidable equality for multistack lists. -/
def Entity.decEqList : (a b : List Entity) → Decidable (a = b)
  | [], [] => isTrue rfl
  | [], _ :: _ => isFalse (fun h => nomatch h)
  | _ :: _, [] => isFalse (fun h => nomatch h)
  | x :: xs, y :: ys =>
    match Entity.decEq x y with
    | isTrue h =>
      match Entity.decEqList xs ys with
      | isTrue h2 => isTrue (by rw [h, h2])
      | isFalse h2 => isFalse (fun hh => h2 (by cases hh; rfl))
    | isFalse h => isFalse (fun hh => h (by cases hh; rfl))

end

instance : DecidableEq Entity := Entity.decEq

/-- Embeds the id attribute of each entities.py class (the dataclass field
defaults fixed by each subclass). -/
def Entity.id : Entity → EntityId
  | .basic i _ _ => i
  | .multi i _ _ _ => i
  | .burger _ _ => .BUN_BOTTOM
  | .chaatDough _ _ _ => .DOUGH
  | .pizzaDough _ _ _ _ => .DOUGH

/-- Embeds the operations attribute shared by all entities.py classes. -/
def Entity.operations : Entity → List Operation
  | .basic _ ops _ => ops
  | .multi _ ops _ _ => ops
  | .burger ops _ => ops
  | .chaatDough ops _ _ => ops
  | .pizzaDough ops _ _ _ => ops

/-- Embeds the stack attribute: the optional single stacked child of plain
entities; MultiStackEntity and Burger force this field to None
(entities.py line 133). -/
def Entity.stack : Entity → Option Entity
  | .basic _ _ st => st
  | .multi _ _ _ _ => none
  | .burger _ _ => none
  | .chaatDough _ st _ => st
  | .pizzaDough _ st _ _ => st

/-- Embeds the multistack attribute of MultiStackEntity and Burger
(empty for the other classes, which do not have it). -/
def Entity.multistack : Entity → List Entity
  | .multi _ _ ms _ => ms
  | .burger _ ms => ms
  | _ => []

/-- Embeds MultiStackEntity.get_capacity and the SushiPlate.get_capacity
override (entities.py lines 141-142, 310-313): a plate holds 2 items once
any of them is rice, otherwise 4; every other multistack entity uses its
capacity field.  Entities without a multistack have no capacity (0). -/
def Entity.get_capacity : Entity → Nat
  | .multi .PLATE _ ms _ =>
      if ms.any (fun c => c.id = .RICE) then 2 else 4
  | .multi _ _ _ cap => cap
  | _ => 0

/-- Lexicographic comparison of topping lists, mirroring Python list
comparison with OrderedEnum elements (a strict prefix is smaller). -/
def toppingListCmp : List ToppingId → List ToppingId → Ordering
  | [], [] => .eq
  | [], _ :: _ => .lt
  | _ :: _, [] => .gt
  | x :: xs, y :: ys => (compare x y).then (toppingListCmp xs ys)

/-- Lexicographic comparison of operation lists, mirroring Python list
comparison of the order=True frozen dataclasses. -/
def opsListCmp : List Operation → List Operation → Ordering
  | [], [] => .eq
  | [], _ :: _ => .lt
  | _ :: _, [] => .gt
  | x :: xs, y :: ys => (compare x y).then (opsListCmp xs ys)

/-- Embeds sorted(s) on a Python set of toppings: insert keeping ascending
enum order and dropping duplicates. -/
def insertToppingSorted (t : ToppingId) : List ToppingId → List ToppingId
  | [] => [t]
  | x :: xs =>
    match compare t x with
    | .lt => t :: x :: xs
    | .eq => x :: xs
    | .gt => x :: insertToppingSorted t xs

/-- Canonical sorted, duplicate-free form of a topping list; models both
sorted(set) and set equality for the Python set fields. -/
def sortedToppingSet : List ToppingId → List ToppingId
  | [] => []
  | t :: ts => insertToppingSorted t (sortedToppingSet ts)

/-- Embeds sorted([a, b]) on two topping lists (PizzaDough._compare_key,
entities.py lines 280-286): the lexicographically smaller list first;
Python sort is stable, so the swap happens exactly when b < a. -/
def sortedPair (a b : List ToppingId) : List ToppingId × List ToppingId :=
  if toppingListCmp b a = .lt then (b, a) else (a, b)

/-- Embeds the _compare_key tuples of entities.py as a value type: one
constructor per tuple shape.  basicK is Entity._compare_key (id, operations,
stack); multiK appends sorted(multistack) (MultiStackEntity, line 138-139)
with the inherited stack always None; burgerK appends the raw multistack
after the sorted one (Burger, lines 267-269); chaatK appends the sauce set
(ChaatDough, lines 179-180) and pizzaK the sorted pair of topping sets
(PizzaDough, lines 280-286).  Tuples of different shapes are never equal in
Python, matching the constructor distinction here. -/
inductive Key where
  | basicK (id : EntityId) (ops : List Operation) (stack : Option Key)
  | multiK (id : EntityId) (ops : List Operation) (sorted : List Key)
  | burgerK (id : EntityId) (ops : List Operation) (sorted : List Key) (raw : List Key)
  | chaatK (id : EntityId) (ops : List Operation) (stack : Option Key)
      (sauces : List ToppingId)
  | pizzaK (id : EntityId) (ops : List Operation) (stack : Option Key)
      (first : List ToppingId) (second : List ToppingId)

mutual

/-- Decidable syntactic equality of compare keys (spelled out because the
derive handler does not support the nesting). -/
def Key.decEq : (a b : Key) → Decidable (a = b)
  | .basicK i1 o1 s1, .basicK i2 o2 s2 =>
    if h1 : i1 = i2 then
      if h2 : o1 = o2 then
        match Key.decEqOpt s1 s2 with
        | isTrue h3 => isTrue (by rw [h1, h2, h3])
        | isFalse h3 => isFalse (fun h => h3 (by cases h; rfl))
      else isFalse (fun h => h2 (by cases h; rfl))
    else isFalse (fun h => h1 (by cases h; rfl))
  | .multiK i1 o1 m1, .multiK i2 o2 m2 =>
    if h1 : i1 = i2 then
      if h2 : o1 = o2 then
        match Key.decEqList m1 m2 with
        | isTrue h3 => isTrue (by rw [h1, h2, h3])
        | isFalse h3 => isFalse (fun h => h3 (by cases h; rfl))
      else isFalse (fun h => h2 (by cases h; rfl))
    else isFalse (fun h => h1 (by cases h; rfl))
  | .burgerK i1 o1 m1 r1, .burgerK i2 o2 m2 r2 =>
    if h1 : i1 = i2 then
      if h2 : o1 = o2 then
        match Key.decEqList m1 m2 with
        | isTrue h3 =>
          match Key.decEqList r1 r2 with
          | isTrue h4 => isTrue (by rw [h1, h2, h3, h4])
          | isFalse h4 => isFalse (fun h => h4 (by cases h; rfl))
        | isFalse h3 => isFalse (fun h => h3 (by cases h; rfl))
      else isFalse (fun h => h2 (by cases h; rfl))
    else isFalse (fun h => h1 (by cases h; rfl))
  | .chaatK i1 o1 s1 x1, .chaatK i2 o2 s2 x2 =>
    if h1 : i1 = i2 then
      if h2 : o1 = o2 then
        if h4 : x1 = x2 then
          match Key.decEqOpt s1 s2 with
          | isTrue h3 => isTrue (by rw [h1, h2, h3, h4])
          | isFalse h3 => isFalse (fun h => h3 (by cases h; rfl))
        else isFalse (fun h => h4 (by cases h; rfl))
      else isFalse (fun h => h2 (by cases h; rfl))
    else isFalse (fun h => h1 (by cases h; rfl))
  | .pizzaK i1 o1 s1 a1 b1, .pizzaK i2 o2 s2 a2 b2 =>
    if h1 : i1 = i2 then
      if h2 : o1 = o2 then
        if h4 : a1 = a2 then
          if h5 : b1 = b2 then
            match Key.decEqOpt s1 s2 with
            | isTrue h3 => isTrue (by rw [h1, h2, h3, h4, h5])
            | isFalse h3 => isFalse (fun h => h3 (by cases h; rfl))
          else isFalse (fun h => h5 (by cases h; rfl))
        else isFalse (fun h => h4 (by cases h; rfl))
      else isFalse (fun h => h2 (by cases h; rfl))
    else isFalse (fun h => h1 (by cases h; rfl))
  | .basicK _ _ _, .multiK _ _ _ => isFalse (fun h => nomatch h)
  | .basicK _ _ _, .burgerK _ _ _ _ => isFalse (fun h => nomatch h)
  | .basicK _ _ _, .chaatK _ _ _ _ => isFalse (fun h => nomatch h)
  | .basicK _ _ _, .pizzaK _ _ _ _ _ => isFalse (fun h => nomatch h)
  | .multiK _ _ _, .basicK _ _ _ => isFalse (fun h => nomatch h)
  | .multiK _ _ _, .burgerK _ _ _ _ => isFalse (fun h => nomatch h)
  | .multiK _ _ _, .chaatK _ _ _ _ => isFalse (fun h => nomatch h)
  | .multiK _ _ _, .pizzaK _ _ _ _ _ => isFalse (fun h => nomatch h)
  | .burgerK _ _ _ _, .basicK _ _ _ => isFalse (fun h => nomatch h)
  | .burgerK _ _ _ _, .multiK _ _ _ => isFalse (fun h => nomatch h)
  | .burgerK _ _ _ _, .chaatK _ _ _ _ => isFalse (fun h => nomatch h)
  | .burgerK _ _ _ _, .pizzaK _ _ _ _ _ => isFalse (fun h => nomatch h)
  | .chaatK _ _ _ _, .basicK _ _ _ => isFalse (fun h => nomatch h)
  | .chaatK _ _ _ _, .multiK _ _ _ => isFalse (fun h => nomatch h)
  | .chaatK _ _ _ _, .burgerK _ _ _ _ => isFalse (fun h => nomatch h)
  | .chaatK _ _ _ _, .pizzaK _ _ _ _ _ => isFalse (fun h => nomatch h)
  | .pizzaK _ _ _ _ _, .basicK _ _ _ => isFalse (fun h => nomatch h)
  | .pizzaK _ _ _ _ _, .multiK _ _ _ => isFalse (fun h => nomatch h)
  | .pizzaK _ _ _ _ _, .burgerK _ _ _ _ => isFalse (fun h => nomatch h)
  | .pizzaK _ _ _ _ _, .chaatK _ _ _ _ => isFalse (fun h => nomatch h)

/-- Decidable equality for an optional stack key. -/
def Key.decEqOpt : (a b : Option Key) → Decidable (a = b)
  | none, none => isTrue rfl
  | none, some _ => isFalse (fun h => nomatch h)
  | some _, none => isFalse (fun h => nomatch h)
  | some x, some y =>
    match Key.decEq x y with
    | isTrue h => isTrue (by rw [h])
    | isFalse h => isFalse (fun hh => h (by cases hh; rfl))

/-- Decidable equality for lists of keys. -/
def Key.decEqList : (a b : List Key) → Decidable (a = b)
  | [], [] => isTrue rfl
  | [], _ :: _ => isFalse (fun h => nomatch h)
  | _ :: _, [] => isFalse (fun h => nomatch h)
  | x :: xs, y :: ys =>
    match Key.decEq x y with
    | isTrue h =>
      match Key.decEqList xs ys with
      | isTrue h2 => isTrue (by rw [h, h2])
      | isFalse h2 => isFalse (fun hh => h2 (by cases hh; rfl))
    | isFalse h => isFalse (fun hh => h (by cases hh; rfl))

end

instance : DecidableEq Key := Key.decEq

/-- Constructor index of a key shape, used to totalize the ordering across
shapes (Python raises TypeError on such comparisons; they never occur when
sorting the homogeneous multistacks of the shipped levels). -/
def keyTailIdx : Key → Nat
  | .basicK _ _ _ => 0
  | .multiK _ _ _ => 1
  | .burgerK _ _ _ _ => 2
  | .chaatK _ _ _ _ => 3
  | .pizzaK _ _ _ _ _ => 4

mutual

/-- Total order on compare keys used for sorted(multistack): models the
Python tuple comparison driven by Entity.__lt__.  Any fixed total order
produces the same canonical sorted form on both sides of an equality check,
which is all sorted(multistack) is used for. -/
def keyCmp : Key → Key → Ordering
  | .basicK i1 o1 s1, .basicK i2 o2 s2 =>
    (compare i1 i2).then ((opsListCmp o1 o2).then (keyOptCmp s1 s2))
  | .multiK i1 o1 m1, .multiK i2 o2 m2 =>
    (compare i1 i2).then ((opsListCmp o1 o2).then (keyListCmp m1 m2))
  | .burgerK i1 o1 m1 r1, .burgerK i2 o2 m2 r2 =>
    (compare i1 i2).then ((opsListCmp o1 o2).then
      ((keyListCmp m1 m2).then (keyListCmp r1 r2)))
  | .chaatK i1 o1 s1 x1, .chaatK i2 o2 s2 x2 =>
    (compare i1 i2).then ((opsListCmp o1 o2).then
      ((keyOptCmp s1 s2).then (toppingListCmp x1 x2)))
  | .pizzaK i1 o1 s1 a1 b1, .pizzaK i2 o2 s2 a2 b2 =>
    (compare i1 i2).then ((opsListCmp o1 o2).then
      ((keyOptCmp s1 s2).then ((toppingListCmp a1 a2).then (toppingListCmp b1 b2))))
  | x, y => compare (keyTailIdx x) (keyTailIdx y)

/-- Ordering on optional stack keys (None sorts first). -/
def keyOptCmp : Option Key → Option Key → Ordering
  | none, none => .eq
  | none, some _ => .lt
  | some _, none => .gt
  | some x, some y => keyCmp x y

/-- Lexicographic ordering on key lists (Python list comparison). -/
def keyListCmp : List Key → List Key → Ordering
  | [], [] => .eq
  | [], _ :: _ => .lt
  | _ :: _, [] => .gt
  | x :: xs, y :: ys => (keyCmp x y).then (keyListCmp xs ys)

end

/-- Ordered insertion for the canonical sorted multistack key list. -/
def insertKeySorted (k : Key) : List Key → List Key
  | [] => [k]
  | x :: xs =>
    match keyCmp k x with
    | .gt => x :: insertKeySorted k xs
    | _ => k :: x :: xs

/-- Embeds sorted(self.multistack) at the key level: a stable insertion sort
by the key order.  Equal elements have identical keys, so the resulting key
list is canonical for the multiset of children. -/
def sortKeys : List Key → List Key
  | [] => []
  | x :: xs => insertKeySorted x (sortKeys xs)

mutual

/-- Embeds the _compare_key methods of entities.py, computing the full
comparison tuple of an entity tree (see Key). -/
def Entity.key : Entity → Key
  | .basic i ops none => .basicK i ops none
  | .basic i ops (some s) => .basicK i ops (some s.key)
  | .multi i ops ms _ => .multiK i ops (sortKeys (Entity.keyList ms))
  | .burger ops ms =>
    .burgerK .BUN_BOTTOM ops (sortKeys (Entity.keyList ms)) (Entity.keyList ms)
  | .chaatDough ops none ss => .chaatK .DOUGH ops none (sortedToppingSet ss)
  | .chaatDough ops (some s) ss => .chaatK .DOUGH ops (some s.key) (sortedToppingSet ss)
  | .pizzaDough ops none l r =>
    .pizzaK .DOUGH ops none
      (sortedPair (sortedToppingSet l) (sortedToppingSet r)).1
      (sortedPair (sortedToppingSet l) (sortedToppingSet r)).2
  | .pizzaDough ops (some s) l r =>
    .pizzaK .DOUGH ops (some s.key)
      (sortedPair (sortedToppingSet l) (sortedToppingSet r)).1
      (sortedPair (sortedToppingSet l) (sortedToppingSet r)).2

/-- The keys of the multistack children, in multistack order. -/
def Entity.keyList : List Entity → List Key
  | [] => []
  | e :: es => e.key :: Entity.keyList es

end

/-- Embeds Entity.__eq__ (entities.py lines 100-103): structural equality of
the compare keys. -/
def entityEq (a b : Entity) : Bool := decide (a.key = b.key)

mutual

/-- Embeds Entity.add_to_stack (entities.py lines 119-128) and
MultiStackEntity.add_to_stack (lines 150-163).  The Python method mutates
the receiver and, on acceptance, removes the other entity from the floor
index; here the updated receiver is returned and the caller interprets
success as the other entity leaving the floor.  The exception argument is
the Except error value.  Simple entities with an occupied stack slot recurse
into the child; a multistack entity at capacity tries each existing child in
order, catching the stacking error and continuing, and when the loop runs
out of children it returns with no change and no error, exactly as the
Python loop does; below capacity it checks the whitelist for its own id and
appends.  (Python indexes _STACK_WHITELIST[self.id] directly in the
multistack branch, a KeyError for ids outside the dict; such ids never
reach this code and the empty-whitelist reading used here rejects them.) -/
def Entity.add_to_stack : Entity → Entity → Except Unit Entity
  | .basic i ops none, other =>
    if stackWhitelist i other.id then .ok (.basic i ops (some other))
    else .error ()
  | .basic i ops (some s), other =>
    match s.add_to_stack other with
    | .ok s2 => .ok (.basic i ops (some s2))
    | .error e => .error e
  | .chaatDough ops none ss, other =>
    if stackWhitelist .DOUGH other.id then .ok (.chaatDough ops (some other) ss)
    else .error ()
  | .chaatDough ops (some s) ss, other =>
    match s.add_to_stack other with
    | .ok s2 => .ok (.chaatDough ops (some s2) ss)
    | .error e => .error e
  | .pizzaDough ops none l r, other =>
    if stackWhitelist .DOUGH other.id then .ok (.pizzaDough ops (some other) l r)
    else .error ()
  | .pizzaDough ops (some s) l r, other =>
    match s.add_to_stack other with
    | .ok s2 => .ok (.pizzaDough ops (some s2) l r)
    | .error e => .error e
  | .multi i ops ms cap, other =>
    if (Entity.multi i ops ms cap).get_capacity ≠ 0 ∧
        ms.length = (Entity.multi i ops ms cap).get_capacity then
      match tryStackChildren ms other with
      | some ms2 => .ok (.multi i ops ms2 cap)
      | none => .ok (.multi i ops ms cap)
    else
      if stackWhitelist i other.id then .ok (.multi i ops (ms ++ [other]) cap)
      else .error ()
  | .burger ops ms, other =>
    if stackWhitelist .BUN_BOTTOM other.id then .ok (.burger ops (ms ++ [other]))
    else .error ()

/-- Embeds the child-trying loop of MultiStackEntity.add_to_stack
(entities.py lines 152-158): returns the updated children when some child
accepts, none when every child raises the stacking error. -/
def tryStackChildren : List Entity → Entity → Option (List Entity)
  | [], _ => none
  | c :: cs, other =>
    match c.add_to_stack other with
    | .ok c2 => some (c2 :: cs)
    | .error _ =>
      match tryStackChildren cs other with
      | some cs2 => some (c :: cs2)
      | none => none

end

/-- Dump values: models the nested hashable tuples produced by the
dump_state methods used for cycle detection. -/
inductive DVal where
  | intV (v : Int)
  | boolV (v : Bool)
  | opV (v : Operation)
  | topV (v : ToppingId)
  | tup (items : List DVal)

mutual

/-- Decidable equality of dump values (spelled out for the nested list). -/
def DVal.decEq : (a b : DVal) → Decidable (a = b)
  | .intV x, .intV y =>
    if h : x = y then isTrue (by rw [h]) else isFalse (fun hh => h (by cases hh; rfl))
  | .boolV x, .boolV y =>
    if h : x = y then isTrue (by rw [h]) else isFalse (fun hh => h (by cases hh; rfl))
  | .opV x, .opV y =>
    if h : x = y then isTrue (by rw [h]) else isFalse (fun hh => h (by cases hh; rfl))
  | .topV x, .topV y =>
    if h : x = y then isTrue (by rw [h]) else isFalse (fun hh => h (by cases hh; rfl))
  | .tup xs, .tup ys =>
    match DVal.decEqList xs ys with
    | isTrue h => isTrue (by rw [h])
    | isFalse h => isFalse (fun hh => h (by cases hh; rfl))
  | .intV _, .boolV _ => isFalse (fun h => nomatch h)
  | .intV _, .opV _ => isFalse (fun h => nomatch h)
  | .intV _, .topV _ => isFalse (fun h => nomatch h)
  | .intV _, .tup _ => isFalse (fun h => nomatch h)
  | .boolV _, .intV _ => isFalse (fun h => nomatch h)
  | .boolV _, .opV _ => isFalse (fun h => nomatch h)
  | .boolV _, .topV _ => isFalse (fun h => nomatch h)
  | .boolV _, .tup _ => isFalse (fun h => nomatch h)
  | .opV _, .intV _ => isFalse (fun h => nomatch h)
  | .opV _, .boolV _ => isFalse (fun h => nomatch h)
  | .opV _, .topV _ => isFalse (fun h => nomatch h)
  | .opV _, .tup _ => isFalse (fun h => nomatch h)
  | .topV _, .intV _ => isFalse (fun h => nomatch h)
  | .topV _, .boolV _ => isFalse (fun h => nomatch h)
  | .topV _, .opV _ => isFalse (fun h => nomatch h)
  | .topV _, .tup _ => isFalse (fun h => nomatch h)
  | .tup _, .intV _ => isFalse (fun h => nomatch h)
  | .tup _, .boolV _ => isFalse (fun h => nomatch h)
  | .tup _, .opV _ => isFalse (fun h => nomatch h)
  | .tup _, .topV _ => isFalse (fun h => nomatch h)

/-- Decidable equality for dump value lists. -/
def DVal.decEqList : (a b : List DVal) → Decidable (a = b)
  | [], [] => isTrue rfl
  | [], _ :: _ => isFalse (fun h => nomatch h)
  | _ :: _, [] => isFalse (fun h => nomatch h)
  | x :: xs, y :: ys =>
    match DVal.decEq x y with
    | isTrue h =>
      match DVal.decEqList xs ys with
      | isTrue h2 => isTrue (by rw [h, h2])
      | isFalse h2 => isFalse (fun hh => h2 (by cases hh; rfl))
    | isFalse h => isFalse (fun hh => h (by cases hh; rfl))

end

instance : DecidableEq DVal := DVal.decEq

/-- Dump of a position, tuple(self.position). -/
def posDump (p : Position) : DVal := .tup [.intV p.column, .intV p.row]

/-- Dump of the operation history.  Python calls op.dump() on each
operation; that method is absent from the snapshot, so (modelled from the
spec) an operation serializes to itself. -/
def opsDump (ops : List Operation) : DVal := .tup (ops.map .opV)

/-- Dump of a frozenset of toppings, canonically sorted. -/
def toppingSetDump (ts : List ToppingId) : DVal :=
  .tup ((sortedToppingSet ts).map .topV)

mutual

/-- Embeds Entity.dump_state and its overrides (entities.py lines 110-117,
144-148, 182-183, 288-293): (position tuple, operation dumps, stack dump or
empty tuple), extended per subtype with the multistack dumps or the topping
frozensets.  The position lives in the floor state and is passed in; a
stacked child has position (-1, -1), as State.remove_entity leaves it. -/
def Entity.dump_state : Entity → Position → DVal
  | .basic _ ops none, pos => .tup [posDump pos, opsDump ops, .tup []]
  | .basic _ ops (some s), pos =>
    .tup [posDump pos, opsDump ops, s.dump_state ⟨-1, -1⟩]
  | .multi _ ops ms _, pos =>
    .tup [posDump pos, opsDump ops, .tup [],
      .tup (Entity.dumpList ms)]
  | .burger ops ms, pos =>
    .tup [posDump pos, opsDump ops, .tup [],
      .tup (Entity.dumpList ms)]
  | .chaatDough ops none ss, pos =>
    .tup [posDump pos, opsDump ops, .tup [], toppingSetDump ss]
  | .chaatDough ops (some s) ss, pos =>
    .tup [posDump pos, opsDump ops, s.dump_state ⟨-1, -1⟩, toppingSetDump ss]
  | .pizzaDough ops none l r, pos =>
    .tup [posDump pos, opsDump ops, .tup [], toppingSetDump l, toppingSetDump r]
  | .pizzaDough ops (some s) l r, pos =>
    .tup [posDump pos, opsDump ops, s.dump_state ⟨-1, -1⟩,
      toppingSetDump l, toppingSetDump r]

/-- The dump states of the multistack children (each at position
(-1, -1)). -/
def Entity.dumpList : List Entity → List DVal
  | [] => []
  | e :: es => e.dump_state ⟨-1, -1⟩ :: Entity.dumpList es

end

/-- Embeds the error taxonomy of errors.py: EmergencyStop (message plus the
offending positions, the module position first) and InternalSimulationError
(assertion failures are reraised as this, simulator.py lines 503-505), and
TimeLimitExceeded with its optional loop bounds (errors.py lines 49-61). -/
inductive SimErr where
  | emergencyStop (message : String) (positions : List Position)
  | internalError (message : String)
  | timeLimitExceeded (loop : Option (Nat × Nat))
deriving DecidableEq

/-- The collision EmergencyStop raised by the movement resolver: the
destination first, then the sources of the colliding moves
(simulator.py lines 190-198, 309-312, 351-354). -/
def collisionStop (dest : Position) (sources : List Position) : SimErr :=
  .emergencyStop "These products have collided." (dest :: sources)

/-- Modelled from the spec: simulator MoveEntity, a proposed entity move
(imported by simulator.py from the missing models.py).  tag models the
Python object identity of the moved entity, entity its product value,
source the position the entity occupies when the move is proposed,
direction the direction of travel and force whether the move is forced;
dest is the source shifted one cell. -/
structure MoveEntity where
  tag : Nat
  entity : Entity
  source : Position
  direction : Direction
  force : Bool
deriving DecidableEq

/-- The destination cell of a move: its source shifted by its direction. -/
def MoveEntity.dest (m : MoveEntity) : Position := m.source.shift_by m.direction

/-- The slice of simulator.State that movement resolution reads and writes:
the position of every floor entity (keyed by identity tag) and the
successful_output flag (simulator.py lines 60-74). -/
structure MoveState where
  entities : List (Nat × Position)
  successful_output : Bool
deriving DecidableEq

/-- Embeds State.get_entity (simulator.py lines 139-145) at the resolver
level: the tag of the entity occupying a position, if any. -/
def getEntityTagAt (st : MoveState) (p : Position) : Option Nat :=
  (st.entities.find? (fun ep => ep.2 == p)).map (fun ep => ep.1)

/-- The position of an entity, by identity tag. -/
def lookupPos (st : MoveState) (tag : Nat) : Option Position :=
  (st.entities.find? (fun ep => ep.1 == tag)).map (fun ep => ep.2)

/-- Embeds State.move_entity (simulator.py lines 132-137): shift the
entity from its current position one cell in the direction. -/
def move_entity (st : MoveState) (tag : Nat) (d : Direction) : MoveState :=
  { st with
    entities := st.entities.map fun ep =>
      if ep.1 = tag then (ep.1, ep.2.shift_by d) else ep }

/-- Embeds State.remove_entity (simulator.py lines 125-130) at the resolver
level: drop the entity from the position map. -/
def remove_entity (st : MoveState) (tag : Nat) : MoveState :=
  { st with entities := st.entities.filter fun ep => ep.1 ≠ tag }

/-- Embeds the soft-move priority list of handle_moves_to_empty
(simulator.py line 201): down, right, left, up. -/
def movePriorityIndex : Direction → Nat
  | .DOWN => 0
  | .RIGHT => 1
  | .LEFT => 2
  | .UP => 3

/-- Embeds min(moves, key=priority.index(direction)) (simulator.py
line 202): Python min keeps the earliest element among ties. -/
def minByPriority (m0 : MoveEntity) (rest : List MoveEntity) : MoveEntity :=
  rest.foldl
    (fun best m =>
      if movePriorityIndex m.direction < movePriorityIndex best.direction then m
      else best)
    m0

/-- Embeds handle_moves_to_empty (simulator.py lines 180-203): moving
entities onto an empty factory floor space.  The leading assertion that all
moves share one force state becomes an internal error, as simulate_order
turns assertion failures into InternalSimulationError. -/
def handle_moves_to_empty (st : MoveState) (dest : Position)
    (moves : List MoveEntity) : Except SimErr (Option MoveEntity) :=
  match moves with
  | [] => .error (.internalError "empty move group")
  | m0 :: rest =>
    if ¬ (rest.all fun m => m.force = m0.force) then
      .error (.internalError "not all moves have the same force state")
    else if (getEntityTagAt st dest).isSome then
      if m0.force then .error (collisionStop dest [m0.source])
      else .ok none
    else if m0.force then
      if rest.length ≥ 1 then
        .error (collisionStop dest (moves.map fun m => m.source))
      else .ok (some m0)
    else .ok (some (minByPriority m0 rest))

/-- The shape of Module.handle_moves as the movement resolver calls it:
given the simulation state, the module floor position, a move group and the
ignore_collisions and dry_run flags, return the accepted move (none when no
movement happens) or raise.  The resolver theorems are parameterized over
this behavior. -/
def HandleMoves : Type :=
  MoveState → Position → List MoveEntity → Bool → Bool →
    Except SimErr (Option MoveEntity)

/-- The move-group loop of resolve_movement (simulator.py lines 313-326):
try the forced then the optional group; the first accepted move is
performed and the remaining group is not tried. -/
def resolveMovementGroups (getModule : Position → Option HandleMoves)
    (st : MoveState) (dest : Position) :
    List (List MoveEntity) → Except SimErr MoveState
  | [] => .ok st
  | g :: gs =>
    if g.isEmpty then resolveMovementGroups getModule st dest gs
    else
      match
        (match getModule dest with
         | none => handle_moves_to_empty st dest g
         | some hm => hm st dest g false false) with
      | .error e => .error e
      | .ok none => resolveMovementGroups getModule st dest gs
      | .ok (some a) => .ok (move_entity st a.tag a.direction)

/-- Embeds resolve_movement (simulator.py lines 296-327): split the moves
to one destination into forced and optional, raise the collision
EmergencyStop when more than one forced move competes, then resolve the
groups in order. -/
def resolve_movement (getModule : Position → Option HandleMoves)
    (st : MoveState) (dest : Position) (moves : List MoveEntity) :
    Except SimErr MoveState :=
  let forced := moves.filter fun m => m.force
  let optional := moves.filter fun m => !m.force
  if forced.length > 1 then
    .error (collisionStop dest (forced.map fun m => m.source))
  else resolveMovementGroups getModule st dest [forced, optional]

/-- Accumulator of the dry-run scan in resolve_loop: the do_moves flag, the
accepted moves gathered so far, and the module binding left over from the
most recent loop iteration (the Python variable module, which the commit
phase reuses). -/
structure LoopScan where
  do_moves : Bool
  accepted_moves : List MoveEntity
  lastDest : Option Position
deriving DecidableEq

/-- Embeds the per-destination dry-run loop of resolve_loop (simulator.py
lines 342-371): for each destination, check for forced collisions, pick the
forced group if nonempty (the optional group is only consulted when no
forced move targets the cell), dry-run the module handler, and record
whether the accepted move stays inside the loop. -/
def resolveLoopScan (getModule : Position → Option HandleMoves)
    (st : MoveState) (byDest : Position → List MoveEntity)
    (loopMoves : List MoveEntity) :
    List Position → LoopScan → Except SimErr LoopScan
  | [], acc => .ok acc
  | dest :: rest, acc =>
    let forced := (byDest dest).filter fun m => m.force
    let optional := (byDest dest).filter fun m => !m.force
    if forced.length > 1 then
      .error (collisionStop dest (forced.map fun m => m.source))
    else
      let group := if forced.isEmpty then optional else forced
      if group.isEmpty then resolveLoopScan getModule st byDest loopMoves rest acc
      else
        match getModule dest with
        | none => .error (.internalError "impossible move off an empty space")
        | some hm =>
          match hm st dest group true true with
          | .error e => .error e
          | .ok (some a) =>
            if loopMoves.contains a then
              resolveLoopScan getModule st byDest loopMoves rest
                ⟨acc.do_moves, acc.accepted_moves ++ [a], some dest⟩
            else
              resolveLoopScan getModule st byDest loopMoves rest
                ⟨false, acc.accepted_moves, some dest⟩
          | .ok none =>
            resolveLoopScan getModule st byDest loopMoves rest
              ⟨false, acc.accepted_moves, some dest⟩

/-- Embeds the commit phase of resolve_loop (simulator.py lines 372-380):
re-run the module handler (the one bound to the Python variable module, the
last destination scanned) for each accepted move with collisions ignored,
check it accepts exactly that move (the assertion becomes an internal
error), and move the entity. -/
def commitLoopMoves (getModule : Position → Option HandleMoves)
    (lastDest : Option Position) :
    List MoveEntity → MoveState → Except SimErr MoveState
  | [], st => .ok st
  | m :: ms, st =>
    match lastDest with
    | none => .error (.internalError "module is None")
    | some d =>
      match getModule d with
      | none => .error (.internalError "module is None")
      | some hm =>
        match hm st d [m] true false with
        | .error e => .error e
        | .ok acc =>
          if acc = some m then
            commitLoopMoves getModule lastDest ms (move_entity st m.tag m.direction)
          else .error (.internalError "accepted is not move")

/-- Embeds resolve_loop (simulator.py lines 329-380): dry-run every
destination of a closed movement ring; when every member keeps its occupant
inside the ring, commit all moves (after checking the accepted moves are a
permutation of the loop moves, the sorted-lists assertion), otherwise leave
the state untouched. -/
def resolve_loop (getModule : Position → Option HandleMoves) (st : MoveState)
    (dests : List Position) (byDest : Position → List MoveEntity)
    (loopMoves : List MoveEntity) : Except SimErr MoveState :=
  if ((loopMoves.map fun m => m.dest).eraseDups).length ≠ dests.length then
    .error (.internalError "loop dests mismatch")
  else
    match resolveLoopScan getModule st byDest loopMoves dests ⟨true, [], none⟩ with
    | .error e => .error e
    | .ok scan =>
      if scan.do_moves then
        if scan.accepted_moves.isPerm loopMoves then
          commitLoopMoves getModule scan.lastDest scan.accepted_moves st
        else .error (.internalError "accepted moves do not match loop moves")
      else .ok st

/-- Embeds the pre-pass of move_entities (simulator.py lines 387-403): a
move leaving the output position downward marks the order successful,
removes its entity and is discarded before destination grouping; any other
move whose destination leaves the 6x7 floor raises the EmergencyStop
carrying its source and destination; the remaining moves are kept. -/
def moveEntitiesPrepass (outputPos : Position) :
    MoveState → List MoveEntity → Except SimErr (MoveState × List MoveEntity)
  | st, [] => .ok (st, [])
  | st, m :: ms =>
    if m.source = outputPos ∧ m.direction = .DOWN then
      moveEntitiesPrepass outputPos
        { remove_entity st m.tag with successful_output := true } ms
    else if ¬ (0 ≤ m.dest.row ∧ m.dest.row < 7 ∧ 0 ≤ m.dest.column ∧ m.dest.column < 6) then
      .error (.emergencyStop "Products cannot leave the factory." [m.source, m.dest])
    else
      match moveEntitiesPrepass outputPos st ms with
      | .error e => .error e
      | .ok (st2, kept) => .ok (st2, m :: kept)

/-- Embeds simulator._MAX_CYCLE_LENGTH (simulator.py line 452). -/
def maxCycleLength : Nat := 1000

/-- Ordered insertion by tag for the sorted entity-state items of
State.dump. -/
def insertByTag (kv : Nat × DVal) : List (Nat × DVal) → List (Nat × DVal)
  | [] => [kv]
  | x :: xs => if kv.1 ≤ x.1 then kv :: x :: xs else x :: insertByTag kv xs

/-- Sorts dump items by entity tag, embedding sorted(entity_states.items())
of State.dump (the Python keys are the id() values of the entities; the
identity tags play that role here). -/
def sortByTag : List (Nat × DVal) → List (Nat × DVal)
  | [] => []
  | x :: xs => insertByTag x (sortByTag xs)

/-- Embeds State.dump (simulator.py lines 97-114): the cycle-detection
fingerprint, a tuple of the non-empty module dump states, the entity dump
states keyed and sorted by entity identity, and the successful_output
flag. -/
def stateDump (moduleStates : List DVal)
    (entities : List (Nat × Entity × Position)) (success : Bool) : DVal :=
  .tup
    [ .tup (moduleStates.filter fun v => v ≠ .tup []),
      .tup ((sortByTag (entities.map fun e => (e.1, e.2.1.dump_state e.2.2))).map
        fun kv => .tup [.intV (Int.ofNat kv.1), kv.2]),
      .boolV success ]

/-- Embeds the message construction of TimeLimitExceeded.__init__
(errors.py lines 49-61): a repeat at distance one is described as a
deadlock, a longer repeat as a loop from the earlier tick. -/
def tleMessage : Option (Nat × Nat) → String
  | none => "Time limit exceeded."
  | some se =>
    if se.1 + 1 = se.2 then "Time limit exceeded (deadlock detected)."
    else "Time limit exceeded (loop detected from " ++ toString se.1 ++ ")."

/-- Outcome of one iteration of the simulate_order while loop: the order
completed, or the simulation continues with an updated seen-states
history. -/
inductive SimStepResult (σ : Type) where
  | finished (st : σ)
  | continueSim (st : σ) (seen : List (DVal × Nat))

/-- The per-tick phases of simulate_order (simulator.py lines 480-490),
kept opaque: incrementing the tick counter, the module tick plus
move_entities, the sense-signal update, the completion test
(successful_output with no entities left), the signal latch
(propagate_signals) and the state fingerprint with the tick counter. -/
structure TickPhases (σ : Type) where
  incrementTime : σ → σ
  tickAndMove : σ → Except SimErr σ
  updateSenseSignals : σ → σ
  isFinished : σ → Bool
  propagateSignals : σ → σ
  dump : σ → DVal
  time : σ → Nat

/-- Embeds one iteration of the simulate_order while loop (simulator.py
lines 479-502): run the tick phases in order; if the order is not finished,
latch signals and only then fingerprint the state; a fingerprint present in
the seen history raises TimeLimitExceeded with (earlier tick, current
tick), otherwise the fingerprint is recorded and the history trimmed to the
most recent maxCycleLength entries before the explicit tick budget is
checked. -/
def simTickStep {σ : Type} (ph : TickPhases σ) (st0 : σ)
    (seen : List (DVal × Nat)) (timeLimit : Int) :
    Except SimErr (SimStepResult σ) :=
  let st1 := ph.incrementTime st0
  match ph.tickAndMove st1 with
  | .error e => .error e
  | .ok st2 =>
    let st3 := ph.updateSenseSignals st2
    if ph.isFinished st3 then .ok (.finished st3)
    else
      let st4 := ph.propagateSignals st3
      let key := ph.dump st4
      match seen.find? (fun kv => kv.1 == key) with
      | some kv => .error (.timeLimitExceeded (some (kv.2, ph.time st4)))
      | none =>
        let seen2 := seen ++ [(key, ph.time st4)]
        let seen3 := if seen2.length > maxCycleLength then seen2.drop 1 else seen2
        if timeLimit ≠ -1 ∧ (Int.ofNat (ph.time st4)) ≥ timeLimit then
          .error (.timeLimitExceeded none)
        else .ok (.continueSim st4 seen3)

/-- Embeds modules._MOVE_PRIORITY (modules.py lines 83-88): the index of a
relative entry direction in [BACK, LEFT, RIGHT, FRONT]. -/
def movePriorityRel : RelativeDirection → Nat
  | .BACK => 0
  | .LEFT => 1
  | .RIGHT => 2
  | .FRONT => 3

/-- The priority index of a move arriving at a module facing moduleDir:
move.direction.back().relative_to(self.direction) looked up in
_MOVE_PRIORITY (modules.py lines 262-267). -/
def moveRelIdx (m : MoveEntity) (moduleDir : Direction) : Nat :=
  movePriorityRel ((m.direction.back).relative_to moduleDir)

/-- Embeds the default Module.handle_moves (modules.py lines 239-270):
reject any move entering from a side outside the module input directions
with the EmergencyStop carrying the module position and the move source; a
single move is returned as is, otherwise the move with the best
_MOVE_PRIORITY rank wins (Python min; first among ties). -/
def defaultHandleMoves (inputDirections : List RelativeDirection)
    (moduleDir : Direction) (modulePos : Position)
    (moves : List MoveEntity) : Except SimErr MoveEntity :=
  match moves.find?
      (fun m => !(inputDirections.contains ((m.direction.back).relative_to moduleDir))) with
  | some m =>
    .error (.emergencyStop "Products cannot enter from this direction."
      [modulePos, m.source])
  | none =>
    match moves with
    | [] => .error (.internalError "min of empty move list")
    | [m] => .ok m
    | m0 :: rest =>
      .ok (rest.foldl
        (fun best m => if moveRelIdx m moduleDir < moveRelIdx best moduleDir then m else best)
        m0)

/-- Embeds Output.tick (modules.py lines 608-617): compare the occupant of
the output cell against the expected product of the active order by
structural equality; a mismatch raises the EmergencyStop at the output
position, a match queues the forced move in the module direction
(queue_move with the default force).  The queued moves are returned as
(entity, direction, force) triples. -/
def outputTick (orderProduct : Entity) (floorPos : Position)
    (moduleDir : Direction) (occupant : Option Entity) :
    Except SimErr (List (Entity × Direction × Bool)) :=
  match occupant with
  | none => .ok []
  | some target =>
    if ¬ entityEq target orderProduct then
      .error (.emergencyStop "This product does not match the order." [floorPos])
    else .ok [(target, moduleDir, true)]

/-- The three cooker module ids handled by Cooker (modules.py line 792). -/
inductive CookerKind where
  | GRILL
  | FRYER
  | MICROWAVE
deriving DecidableEq

/-- Embeds the ModuleId-to-OperationId table inside Cooker.tick
(modules.py lines 831-837). -/
def cookerOperation : CookerKind → Operation
  | .GRILL => .op .COOK_GRILL
  | .FRYER => .op .COOK_FRYER
  | .MICROWAVE => .op .COOK_MICROWAVE

/-- Embeds Cooker._MAX_COOK_TIMES (modules.py lines 794-819): the maximum
number of cook operations before an entity is burnt; ids outside the table
have no entry. -/
def maxCookTimes : EntityId → Option Nat
  | .POCKET => some 4
  | .DOUGH => some 2
  | .CHICKEN => some 8
  | .CHICKEN_HALF => some 8
  | .CHICKEN_CUTLET => some 4
  | .CHICKEN_LEG => some 4
  | .MEAT => some 4
  | .PIZZA => some 4
  | .BURGER => some 4
  | .TENDER => some 4
  | .CORNDOG => some 4
  | .CURLY => some 4
  | .CRINKLE => some 4
  | .TOT => some 4
  | .EGG => some 4
  | .BACON => some 4
  | .BANGER => some 4
  | .TOMATO => some 2
  | .FUNGUS => some 2
  | .BLACK => some 2
  | .BREAD => some 1
  | .POTATO => some 4
  | .ONION => some 4
  | _ => none

/-- Appends one operation to the history of an entity
(target.operations.append(op)). -/
def Entity.appendOp (e : Entity) (op : Operation) : Entity :=
  match e with
  | .basic i ops st => .basic i (ops ++ [op]) st
  | .multi i ops ms cap => .multi i (ops ++ [op]) ms cap
  | .burger ops ms => .burger (ops ++ [op]) ms
  | .chaatDough ops st ss => .chaatDough (ops ++ [op]) st ss
  | .pizzaDough ops st l r => .pizzaDough (ops ++ [op]) st l r

/-- Embeds Cooker.tick (modules.py lines 823-840).  sense is the current
value of the SENSE output signal (signals.values[0], latched from the
previous tick) and eject the current EJECT input; first_tick is the negated
sense.  An occupant is ejected when EJECT is active; otherwise, except on
its first tick, one cook operation is appended unless the entity is already
past the burn limit.  Returns the updated occupant and the moves queued for
it (direction, force). -/
def cookerTick (kind : CookerKind) (moduleDir : Direction)
    (sense eject : Bool) (occupant : Option Entity) :
    Except SimErr (Option Entity × List (Direction × Bool)) :=
  let first_tick := !sense
  match occupant with
  | none => .ok (none, [])
  | some target =>
    if eject then .ok (some target, [(moduleDir, true)])
    else if !first_tick then
      match maxCookTimes target.id with
      | none => .error (.internalError "KeyError in Cooker._MAX_COOK_TIMES")
      | some mx =>
        if target.operations.count (cookerOperation kind) ≤ mx then
          .ok (some (target.appendOp (cookerOperation kind)), [])
        else .ok (some target, [])
    else .ok (some target, [])

/-- Embeds Cooker.update_signals (modules.py lines 865-867): the next SENSE
value is occupancy of the cooker cell after movement. -/
def cookerUpdateSignals (occupant : Option Entity) : Bool := occupant.isSome

/-- Composition of the cooker tick order around an arriving entity,
following the per-tick schedule of simulate_order (module tick, then
movement, then update_signals, then signal latch).  On tick T the cooker
cell is empty during the tick phase and the entity e arrives during
movement resolution; update_signals then latches SENSE for tick T+1, whose
tick phase runs with e in place and the given EJECT value.  Returns the
entity as it stands after tick T and after tick T+1. -/
def cookerArrivalScenario (kind : CookerKind) (moduleDir : Direction)
    (sense0 : Bool) (eject1 : Bool) (e : Entity) :
    Except SimErr (Entity × Entity) :=
  match cookerTick kind moduleDir sense0 false none with
  | .error err => .error err
  | .ok _ =>
    let sense1 := cookerUpdateSignals (some e)
    match cookerTick kind moduleDir sense1 eject1 (some e) with
    | .error err => .error err
    | .ok (some e2, _) => .ok (e, e2)
    | .ok (none, _) => .error (.internalError "occupant vanished")

/-- The floor-and-queue state a slicer tick works on: entities carry an
identity tag (modelling Python object identity, assigned by add_entity in
creation order), their value and their position; queued holds the proposed
moves (tag, direction, force) in queue_move order.  queue_move itself is
modelled from the spec, as State.queue_move is absent from the snapshot. -/
structure FloorState where
  nextTag : Nat
  entities : List (Nat × Entity × Position)
  queued : List (Nat × Direction × Bool)
deriving DecidableEq

/-- Embeds State.get_entity at the module level: the tagged entity at a
position, if any. -/
def floorGetAt (st : FloorState) (p : Position) : Option (Nat × Entity) :=
  (st.entities.find? (fun e => e.2.2 == p)).map fun e => (e.1, e.2.1)

/-- Embeds State.add_entity: a fresh entity enters the floor at a position
and receives the next identity tag. -/
def floorAdd (st : FloorState) (e : Entity) (p : Position) : FloorState :=
  { st with nextTag := st.nextTag + 1, entities := st.entities ++ [(st.nextTag, e, p)] }

/-- Embeds State.remove_entity at the module level. -/
def floorRemove (st : FloorState) (tag : Nat) : FloorState :=
  { st with entities := st.entities.filter fun e => e.1 ≠ tag }

/-- Modelled from the spec: State.queue_move appends a proposed move for an
entity; forced unless stated otherwise. -/
def queueMove (st : FloorState) (tag : Nat) (d : Direction) (force : Bool) :
    FloorState :=
  { st with queued := st.queued ++ [(tag, d, force)] }

/-- Embeds DoubleSlicer._LOOKUP (modules.py lines 901-916): the slice
result per level and input id; indexing outside the table is a Python
KeyError. -/
def doubleSlicerLookup : LevelId → EntityId → Option EntityId
  | .CAFE_TRISTE, .CIGARETTE_4X => some .CIGARETTE_2X
  | .CAFE_TRISTE, .CIGARETTE_2X => some .CIGARETTE
  | .SWEET_HEAT_BBQ, .ROAST => some .ROAST_SLICE
  | .SWEET_HEAT_BBQ, .RIBS => some .RIBS_SLICE
  | .SUSHI_YEAH, .TUNA_MAKI_4X => some .TUNA_MAKI_2X
  | .SUSHI_YEAH, .TUNA_MAKI_2X => some .TUNA_MAKI
  | .SUSHI_YEAH, .SALMON_MAKI_4X => some .SALMON_MAKI_2X
  | .SUSHI_YEAH, .SALMON_MAKI_2X => some .SALMON_MAKI
  | _, _ => none

/-- The levels present in DoubleSlicer._LOOKUP. -/
def doubleSlicerLevel : LevelId → Bool
  | .CAFE_TRISTE => true
  | .SWEET_HEAT_BBQ => true
  | .SUSHI_YEAH => true
  | _ => false

/-- Embeds DoubleSlicer.tick (modules.py lines 918-934).  On Cafe Triste
and Sushi Yeah the occupant is removed and two fresh entities of the sliced
id are created and queued right then left; on Sweet Heat BBQ one fresh
entity is created and queued right while the original occupant itself is
queued left (it is not removed).  An occupant outside the lookup table is
the KeyError case. -/
def doubleSlicerTick (levelId : LevelId) (moduleDir : Direction)
    (pos : Position) (st : FloorState) : Except SimErr FloorState :=
  match floorGetAt st pos with
  | none => .ok st
  | some te =>
    match doubleSlicerLookup levelId te.2.id with
    | none => .error (.internalError "KeyError in DoubleSlicer._LOOKUP")
    | some eid =>
      if levelId = .CAFE_TRISTE ∨ levelId = .SUSHI_YEAH then
        let st1 := floorRemove st te.1
        let rTag := st1.nextTag
        let st2 := floorAdd st1 (.basic eid [] none) pos
        let lTag := st2.nextTag
        let st3 := floorAdd st2 (.basic eid [] none) pos
        .ok (queueMove (queueMove st3 rTag moduleDir.right true) lTag moduleDir.left true)
      else if levelId = .SWEET_HEAT_BBQ then
        let rTag := st.nextTag
        let st2 := floorAdd st (.basic eid [] none) pos
        .ok (queueMove (queueMove st2 rTag moduleDir.right true) te.1 moduleDir.left true)
      else .error (.internalError "unreachable DoubleSlicer level")

/-- Embeds DoubleSlicer.handle_moves (modules.py lines 936-954): the
default direction handling (SimpleMachine enters from the back), then the
whitelist: the arriving entity must have no operations, nothing stacked,
and its id must be in the lookup table of the current level, otherwise the
EmergencyStop is raised. -/
def doubleSlicerHandleMoves (levelId : LevelId) (moduleDir : Direction)
    (pos : Position) (moves : List MoveEntity) : Except SimErr MoveEntity :=
  match defaultHandleMoves [.BACK] moduleDir pos moves with
  | .error e => .error e
  | .ok move =>
    if ¬ move.entity.operations.isEmpty ∨ move.entity.stack.isSome then
      .error (.emergencyStop "This product cannot be sliced." [pos, move.source])
    else if ¬ doubleSlicerLevel levelId then
      .error (.emergencyStop "This product cannot be sliced." [pos, move.source])
    else if (doubleSlicerLookup levelId move.entity.id).isNone then
      .error (.emergencyStop "This product cannot be sliced." [pos, move.source])
    else .ok move

/-- Embeds TripleSlicer.tick (modules.py lines 960-984): the occupant
(chicken or half chicken, anything else was caught on entry) is removed;
a leg and a cutlet are created; on Da Wings a half chicken sends the cutlet
right and the leg forward, otherwise the leg goes right and the cutlet
forward; a whole chicken additionally spawns a half chicken queued left. -/
def tripleSlicerTick (levelId : LevelId) (moduleDir : Direction)
    (pos : Position) (st : FloorState) : Except SimErr FloorState :=
  match floorGetAt st pos with
  | none => .ok st
  | some te =>
    if ¬ (te.2.id = .CHICKEN ∨ te.2.id = .CHICKEN_HALF) then
      .error (.internalError "should have been caught in handle_moves")
    else
      let st1 := floorRemove st te.1
      let leg : Entity := .basic .CHICKEN_LEG [] none
      let cutlet : Entity := .basic .CHICKEN_CUTLET [] none
      let wingsHalf := levelId = .DA_WINGS ∧ te.2.id = .CHICKEN_HALF
      let rEnt := if wingsHalf then cutlet else leg
      let tEnt := if wingsHalf then leg else cutlet
      let rTag := st1.nextTag
      let st2 := floorAdd st1 rEnt pos
      let tTag := st2.nextTag
      let st3 := floorAdd st2 tEnt pos
      let st4 := queueMove (queueMove st3 rTag moduleDir.right true) tTag moduleDir true
      if te.2.id = .CHICKEN then
        let lTag := st4.nextTag
        let st5 := floorAdd st4 (.basic .CHICKEN_HALF [] none) pos
        .ok (queueMove st5 lTag moduleDir.left true)
      else .ok st4

/-- Embeds TripleSlicer.handle_moves (modules.py lines 986-1002): only a
chicken or half chicken with no operations and nothing stacked may
enter. -/
def tripleSlicerHandleMoves (moduleDir : Direction) (pos : Position)
    (moves : List MoveEntity) : Except SimErr MoveEntity :=
  match defaultHandleMoves [.BACK] moduleDir pos moves with
  | .error e => .error e
  | .ok move =>
    if ¬ (move.entity.id = .CHICKEN ∨ move.entity.id = .CHICKEN_HALF) then
      .error (.emergencyStop "This product cannot be sliced." [pos, move.source])
    else if ¬ move.entity.operations.isEmpty ∨ move.entity.stack.isSome then
      .error (.emergencyStop "This product cannot be sliced." [pos, move.source])
    else .ok move

/-- Embeds HorizontalSlicer.tick (modules.py lines 1008-1019): the bun
occupant is removed and replaced by a bottom half queued right and a top
half queued left. -/
def horizontalSlicerTick (moduleDir : Direction) (pos : Position)
    (st : FloorState) : Except SimErr FloorState :=
  match floorGetAt st pos with
  | none => .ok st
  | some te =>
    if te.2.id ≠ .BUN then
      .error (.internalError "should have been caught in handle_moves")
    else
      let st1 := floorRemove st te.1
      let rTag := st1.nextTag
      let st2 := floorAdd st1 (.basic .BUN_BOTTOM [] none) pos
      let lTag := st2.nextTag
      let st3 := floorAdd st2 (.basic .BUN_TOP [] none) pos
      .ok (queueMove (queueMove st3 rTag moduleDir.right true) lTag moduleDir.left true)

/-- Embeds HorizontalSlicer.handle_moves (modules.py lines 1021-1037):
only a bun with no operations and nothing stacked may enter. -/
def horizontalSlicerHandleMoves (moduleDir : Direction) (pos : Position)
    (moves : List MoveEntity) : Except SimErr MoveEntity :=
  match defaultHandleMoves [.BACK] moduleDir pos moves with
  | .error e => .error e
  | .ok move =>
    if move.entity.id ≠ .BUN then
      .error (.emergencyStop "This product cannot be sliced." [pos, move.source])
    else if ¬ move.entity.operations.isEmpty ∨ move.entity.stack.isSome then
      .error (.emergencyStop "This product cannot be sliced." [pos, move.source])
    else .ok move

/-- Embeds SmallCounter.tick and BigCounter.tick, whose bodies are
identical (modules.py lines 1399-1403 and 1442-1446): add the configured
increment for every active input signal, then clamp the count to
[-99, 99]. -/
def counterTick (signals : List Bool) (values : List Int) (count : Int) : Int :=
  let c := (signals.zip values).foldl
    (fun acc sv => if sv.1 then acc + sv.2 else acc) count
  max (-99) (min c 99)

/-- Embeds the Rotator.tick mutation on pizza dough (modules.py lines
1181-1186): swap the left and right topping sets. -/
def pizzaRotate : Entity → Entity
  | .pizzaDough ops st l r => .pizzaDough ops st r l
  | e => e

/-! Order lemmas for the topping comparisons used by the pizza key. -/

theorem toppingCompare_eq {x y : ToppingId} (h : compare x y = Ordering.eq) :
    x = y := by
  revert h
  revert x y
  decide

theorem toppingCompare_swap (x y : ToppingId) :
    compare y x = (compare x y).swap := by
  revert x y
  decide

theorem orderingSwap_then (a b : Ordering) :
    (a.then b).swap = a.swap.then b.swap := by
  cases a <;> cases b <;> rfl

theorem toppingListCmp_swap (a b : List ToppingId) :
    toppingListCmp b a = (toppingListCmp a b).swap := by
  induction a generalizing b with
  | nil => cases b <;> rfl
  | cons x xs ih =>
    cases b with
    | nil => rfl
    | cons y ys =>
      show (compare y x).then (toppingListCmp ys xs) = _
      rw [toppingCompare_swap x y, ih ys, ← orderingSwap_then]
      rfl

theorem toppingListCmp_eq {a b : List ToppingId}
    (h : toppingListCmp a b = Ordering.eq) : a = b := by
  induction a generalizing b with
  | nil => cases b with
    | nil => rfl
    | cons y ys => exact absurd h (by simp [toppingListCmp])
  | cons x xs ih =>
    cases b with
    | nil => exact absurd h (by simp [toppingListCmp])
    | cons y ys =>
      have hxy : compare x y = Ordering.eq := by
        revert h
        show (compare x y).then (toppingListCmp xs ys) = Ordering.eq → _
        cases hc : compare x y <;> simp [Ordering.then]
      have hrest : toppingListCmp xs ys = Ordering.eq := by
        revert h
        show (compare x y).then (toppingListCmp xs ys) = Ordering.eq → _
        rw [hxy]
        simp [Ordering.then]
      rw [toppingCompare_eq hxy, ih hrest]

theorem sortedPair_comm (a b : List ToppingId) :
    sortedPair a b = sortedPair b a := by
  unfold sortedPair
  cases hba : toppingListCmp b a with
  | lt =>
    have hab : toppingListCmp a b = Ordering.gt := by
      rw [toppingListCmp_swap b a, hba]; rfl
    rw [hab]
    simp
  | eq =>
    have := toppingListCmp_eq hba
    subst this
    simp
  | gt =>
    have hab : toppingListCmp a b = Ordering.lt := by
      rw [toppingListCmp_swap b a, hba]; rfl
    rw [hab]
    simp

/-- C9: for every pizza-dough entity, swapping its left topping set with its
right topping set (all other fields unchanged) yields an entity structurally
equal to the original, and the equality holds in both comparison
directions. -/
theorem c9_pizza_rotation_eq (ops : List Operation) (st : Option Entity)
    (l r : List ToppingId) :
    entityEq (pizzaRotate (.pizzaDough ops st l r)) (.pizzaDough ops st l r) = true ∧
    entityEq (.pizzaDough ops st l r) (pizzaRotate (.pizzaDough ops st l r)) = true := by
  have hsw := sortedPair_comm (sortedToppingSet l) (sortedToppingSet r)
  constructor <;> (cases st <;> simp [entityEq, pizzaRotate, Entity.key, hsw])

/-- C10: the counter modules keep their count within [-99, 99] after every
tick: each tick adds the configured increment for every active input jack
and then clamps, so every state reachable from the initial count 0 through
any sequence of ticks satisfies the invariant. -/
theorem c10_counter_clamped (runs : List (List Bool × List Int))
    (signals : List Bool) (values : List Int) (count : Int) :
    (-99 ≤ counterTick signals values count ∧ counterTick signals values count ≤ 99) ∧
    (-99 ≤ runs.foldl (fun c sv => counterTick sv.1 sv.2 c) 0 ∧
      runs.foldl (fun c sv => counterTick sv.1 sv.2 c) 0 ≤ 99) := by
  have hstep : ∀ (s : List Bool) (v : List Int) (c : Int),
      -99 ≤ counterTick s v c ∧ counterTick s v c ≤ 99 := by
    intro s v c
    unfold counterTick
    exact ⟨le_max_left _ _, max_le (by norm_num) (min_le_right _ _)⟩
  refine ⟨hstep _ _ _, ?_⟩
  have hrun : ∀ (rs : List (List Bool × List Int)) (c : Int), -99 ≤ c → c ≤ 99 →
      -99 ≤ rs.foldl (fun c sv => counterTick sv.1 sv.2 c) c ∧
        rs.foldl (fun c sv => counterTick sv.1 sv.2 c) c ≤ 99 := by
    intro rs
    induction rs with
    | nil => intro c h1 h2; exact ⟨h1, h2⟩
    | cons rhd rtl ih => intro c _ _; exact ih _ (hstep _ _ _).1 (hstep _ _ _).2
  exact hrun runs 0 (by norm_num) (by norm_num)

/-- C6: an entity arriving at a cooker on tick T gets no cook operation
appended by that cooker during tick T (the cooker ticks before movement, so
it sees an empty cell), and during tick T+1, with EJECT inactive and the
entity not past the burn limit, exactly one cook operation is appended. -/
theorem c6_cooker_arrival (kind : CookerKind) (moduleDir : Direction)
    (sense0 : Bool) (e : Entity) (mx : Nat)
    (hmax : maxCookTimes e.id = some mx)
    (hcount : e.operations.count (cookerOperation kind) ≤ mx) :
    cookerArrivalScenario kind moduleDir sense0 false e =
      .ok (e, e.appendOp (cookerOperation kind)) ∧
    (e.appendOp (cookerOperation kind)).operations = e.operations ++ [cookerOperation kind] := by
  constructor
  · unfold cookerArrivalScenario cookerTick cookerUpdateSignals
    simp [hmax, hcount]
  · cases e <;> simp [Entity.appendOp, Entity.operations]

/-- Witness for C6: a pocket arriving at a microwave is cooked exactly once
on its second tick there. -/
theorem c6_cooker_arrival_witness :
    cookerArrivalScenario .MICROWAVE .UP false false (.basic .POCKET [] none) =
      .ok (.basic .POCKET [] none, .basic .POCKET [.op .COOK_MICROWAVE] none) :=
  (c6_cooker_arrival .MICROWAVE .UP false (.basic .POCKET [] none) 4
    (by rfl) (by decide)).1

/-- C4: at the failing input, MultiStackEntity.add_to_stack on a full
container whose every child rejects the new entity returns silently with no
mutation instead of propagating the stacking error: a sushi bowl at its
capacity of 2 holding two rice-with-tuna stacks, offered a salmon, is
returned unchanged with no error raised, although the spec requires the
stacking error to propagate when every child rejects. -/
theorem c4_capacity_silent_drop :
    (Entity.multi .BOWL []
        [.basic .RICE [] (some (.basic .TUNA [] none)),
         .basic .RICE [] (some (.basic .TUNA [] none))] 2).get_capacity = 2 ∧
    (Entity.multi .BOWL []
        [.basic .RICE [] (some (.basic .TUNA [] none)),
         .basic .RICE [] (some (.basic .TUNA [] none))] 2).multistack.length = 2 ∧
    Entity.add_to_stack
      (.multi .BOWL []
        [.basic .RICE [] (some (.basic .TUNA [] none)),
         .basic .RICE [] (some (.basic .TUNA [] none))] 2)
      (.basic .SALMON [] none) =
    .ok (.multi .BOWL []
        [.basic .RICE [] (some (.basic .TUNA [] none)),
         .basic .RICE [] (some (.basic .TUNA [] none))] 2) :=
  ⟨rfl, rfl, rfl⟩

/-- C7 counterexample: on Sweet Heat BBQ the double slicer does not remove
the original entity and does not spawn two new entities: a roast occupant
(tag 0) stays on the floor and is queued leftward itself, and exactly one
new entity (the cut slice, tag 1) is spawned and queued rightward. -/
theorem c7_sweet_heat_keeps_original :
    doubleSlicerTick .SWEET_HEAT_BBQ .UP ⟨2, 3⟩
        ⟨1, [(0, .basic .ROAST [] none, ⟨2, 3⟩)], []⟩ =
      .ok ⟨2, [(0, .basic .ROAST [] none, ⟨2, 3⟩),
               (1, .basic .ROAST_SLICE [] none, ⟨2, 3⟩)],
           [(1, .RIGHT, true), (0, .LEFT, true)]⟩ ∧
    ([(0, Entity.basic .ROAST [] none, (⟨2, 3⟩ : Position)),
      (1, .basic .ROAST_SLICE [] none, ⟨2, 3⟩)].filter
        (fun x => x.1 = 0)).length = 1 ∧
    ([(0, Entity.basic .ROAST [] none, (⟨2, 3⟩ : Position)),
      (1, .basic .ROAST_SLICE [] none, ⟨2, 3⟩)].filter
        (fun x => x.1 ≠ 0)).length = 1 :=
  ⟨rfl, rfl, rfl⟩

/-! Helper lemmas about the resolver state. -/

theorem findTag_filter_self (es : List (Nat × Position)) (tag : Nat) :
    ((es.filter fun ep => ep.1 ≠ tag).find? fun ep => ep.1 == tag) = none := by
  rw [List.find?_eq_none]
  intro ep hep
  have h2 := (List.mem_filter.mp hep).2
  simp at h2 ⊢
  exact h2

theorem findTag_filter_none (es : List (Nat × Position)) (tag t : Nat)
    (h : (es.find? fun ep => ep.1 == t) = none) :
    ((es.filter fun ep => ep.1 ≠ tag).find? fun ep => ep.1 == t) = none := by
  rw [List.find?_eq_none] at h ⊢
  intro ep hep
  exact h ep (List.mem_filter.mp hep).1

theorem lookupPos_flag (es : List (Nat × Position)) (b : Bool) (t : Nat) :
    lookupPos ⟨es, b⟩ t = (es.find? fun ep => ep.1 == t).map (fun ep => ep.2) :=
  rfl

theorem prepass_success_mono (outputPos : Position) :
    ∀ (ms : List MoveEntity) (st st2 : MoveState) (kept : List MoveEntity),
      st.successful_output = true →
      moveEntitiesPrepass outputPos st ms = .ok (st2, kept) →
      st2.successful_output = true := by
  intro ms
  induction ms with
  | nil =>
    intro st st2 kept hs h
    simp [moveEntitiesPrepass] at h
    rw [← h.1]
    exact hs
  | cons m tl ih =>
    intro st st2 kept hs h
    simp only [moveEntitiesPrepass] at h
    by_cases hc : m.source = outputPos ∧ m.direction = Direction.DOWN
    · rw [if_pos hc] at h
      exact ih _ _ _ rfl h
    · rw [if_neg hc] at h
      by_cases hb : ¬(0 ≤ m.dest.row ∧ m.dest.row < 7 ∧ 0 ≤ m.dest.column ∧ m.dest.column < 6)
      · rw [if_pos hb] at h
        exact absurd h (by simp)
      · rw [if_neg hb] at h
        cases hrec : moveEntitiesPrepass outputPos st tl with
        | error e => rw [hrec] at h; exact absurd h (by simp)
        | ok pr =>
          rw [hrec] at h
          cases h
          exact ih _ _ _ hs hrec

theorem prepass_lookup_none (outputPos : Position) :
    ∀ (ms : List MoveEntity) (st st2 : MoveState) (kept : List MoveEntity)
      (t : Nat),
      lookupPos st t = none →
      moveEntitiesPrepass outputPos st ms = .ok (st2, kept) →
      lookupPos st2 t = none := by
  intro ms
  induction ms with
  | nil =>
    intro st st2 kept t hn h
    simp [moveEntitiesPrepass] at h
    rw [← h.1]
    exact hn
  | cons m tl ih =>
    intro st st2 kept t hn h
    simp only [moveEntitiesPrepass] at h
    by_cases hc : m.source = outputPos ∧ m.direction = Direction.DOWN
    · rw [if_pos hc] at h
      refine ih _ _ _ _ ?_ h
      show ((st.entities.filter fun ep => ep.1 ≠ m.tag).find? fun ep => ep.1 == t).map
        (fun ep => ep.2) = none
      rw [findTag_filter_none st.entities m.tag t ?_]
      · rfl
      · cases st with
        | mk es b =>
          rw [lookupPos_flag] at hn
          simpa using hn
    · rw [if_neg hc] at h
      by_cases hb : ¬(0 ≤ m.dest.row ∧ m.dest.row < 7 ∧ 0 ≤ m.dest.column ∧ m.dest.column < 6)
      · rw [if_pos hb] at h
        exact absurd h (by simp)
      · rw [if_neg hb] at h
        cases hrec : moveEntitiesPrepass outputPos st tl with
        | error e => rw [hrec] at h; exact absurd h (by simp)
        | ok pr =>
          rw [hrec] at h
          cases h
          exact ih _ _ _ _ hn hrec

theorem prepass_kept_not_output (outputPos : Position) :
    ∀ (ms : List MoveEntity) (st st2 : MoveState) (kept : List MoveEntity),
      moveEntitiesPrepass outputPos st ms = .ok (st2, kept) →
      ∀ x ∈ kept, ¬(x.source = outputPos ∧ x.direction = Direction.DOWN) := by
  intro ms
  induction ms with
  | nil =>
    intro st st2 kept h x hx
    simp [moveEntitiesPrepass] at h
    rw [h.2] at hx
    simp at hx
  | cons m tl ih =>
    intro st st2 kept h x hx
    simp only [moveEntitiesPrepass] at h
    by_cases hc : m.source = outputPos ∧ m.direction = Direction.DOWN
    · rw [if_pos hc] at h
      exact ih _ _ _ h x hx
    · rw [if_neg hc] at h
      by_cases hb : ¬(0 ≤ m.dest.row ∧ m.dest.row < 7 ∧ 0 ≤ m.dest.column ∧ m.dest.column < 6)
      · rw [if_pos hb] at h
        exact absurd h (by simp)
      · rw [if_neg hb] at h
        cases hrec : moveEntitiesPrepass outputPos st tl with
        | error e => rw [hrec] at h; exact absurd h (by simp)
        | ok pr =>
          rw [hrec] at h
          cases h
          rcases List.mem_cons.mp hx with hx | hx
          · rw [hx]; exact hc
          · exact ih _ _ _ hrec x hx

theorem prepass_output_processed (outputPos : Position) :
    ∀ (ms : List MoveEntity) (st st2 : MoveState) (kept : List MoveEntity)
      (m : MoveEntity),
      m.source = outputPos → m.direction = Direction.DOWN → m ∈ ms →
      moveEntitiesPrepass outputPos st ms = .ok (st2, kept) →
      st2.successful_output = true ∧ lookupPos st2 m.tag = none := by
  intro ms
  induction ms with
  | nil =>
    intro st st2 kept m _ _ hmem _
    exact absurd hmem (by simp)
  | cons m0 tl ih =>
    intro st st2 kept m hsrc hdir hmem h
    simp only [moveEntitiesPrepass] at h
    rcases List.mem_cons.mp hmem with hm | hm
    · subst hm
      rw [if_pos ⟨hsrc, hdir⟩] at h
      refine ⟨prepass_success_mono outputPos tl _ _ _ rfl h, ?_⟩
      refine prepass_lookup_none outputPos tl _ _ _ _ ?_ h
      show ((st.entities.filter fun ep => ep.1 ≠ m.tag).find? fun ep => ep.1 == m.tag).map
        (fun ep => ep.2) = none
      rw [findTag_filter_self]
      rfl
    · by_cases hc : m0.source = outputPos ∧ m0.direction = Direction.DOWN
      · rw [if_pos hc] at h
        exact ih _ _ _ _ hsrc hdir hm h
      · rw [if_neg hc] at h
        by_cases hb : ¬(0 ≤ m0.dest.row ∧ m0.dest.row < 7 ∧ 0 ≤ m0.dest.column ∧ m0.dest.column < 6)
        · rw [if_pos hb] at h
          exact absurd h (by simp)
        · rw [if_neg hb] at h
          cases hrec : moveEntitiesPrepass outputPos st tl with
          | error e => rw [hrec] at h; exact absurd h (by simp)
          | ok pr =>
            rw [hrec] at h
            cases h
            exact ih _ _ _ _ hsrc hdir hm hrec

/-- C5: the output module compares its occupant against the expected product
of the active order by structural equality: a mismatch raises the
EmergencyStop at the output position; a match queues the forced move in the
output direction (downward); and move_entities treats a move leaving the
output position downward as successful output, setting the success flag and
removing the entity instead of keeping the move or raising the off-grid
EmergencyStop. -/
theorem c5_output_behavior (orderProduct target : Entity)
    (floorPos outputPos : Position) (moduleDir : Direction) (st : MoveState)
    (m : MoveEntity) (ms : List MoveEntity) (st2 : MoveState)
    (kept : List MoveEntity)
    (hsrc : m.source = outputPos) (hdir : m.direction = Direction.DOWN) :
    (entityEq target orderProduct = false →
      outputTick orderProduct floorPos moduleDir (some target) =
        .error (.emergencyStop "This product does not match the order." [floorPos])) ∧
    (entityEq target orderProduct = true →
      outputTick orderProduct floorPos moduleDir (some target) =
        .ok [(target, moduleDir, true)]) ∧
    (moveEntitiesPrepass outputPos st [m] =
      .ok ({ remove_entity st m.tag with successful_output := true }, [])) ∧
    (m ∈ ms → moveEntitiesPrepass outputPos st ms = .ok (st2, kept) →
      st2.successful_output = true ∧ lookupPos st2 m.tag = none ∧ m ∉ kept) := by
  refine ⟨?_, ?_, ?_, ?_⟩
  · intro hne
    simp [outputTick, hne]
  · intro he
    simp [outputTick, he]
  · simp [moveEntitiesPrepass, hsrc, hdir]
  · intro hmem h
    obtain ⟨hsucc, hnone⟩ :=
      prepass_output_processed outputPos ms st st2 kept m hsrc hdir hmem h
    refine ⟨hsucc, hnone, fun hk => ?_⟩
    exact prepass_kept_not_output outputPos ms st st2 kept h m hk ⟨hsrc, hdir⟩

/-- Witness for C5: a mismatching nacho triggers the output EmergencyStop,
and the matching move off the output cell is consumed with the success flag
set and the entity removed. -/
theorem c5_output_behavior_witness :
    outputTick (.basic .NACHO [DispenseFluid .CHEESE] none) ⟨2, 0⟩ .DOWN
        (some (.basic .NACHO [] none)) =
      .error (.emergencyStop "This product does not match the order." [⟨2, 0⟩]) ∧
    moveEntitiesPrepass ⟨2, 0⟩ ⟨[(0, ⟨2, 0⟩)], false⟩
        [⟨0, .basic .NACHO [DispenseFluid .CHEESE] none, ⟨2, 0⟩, .DOWN, true⟩] =
      .ok (⟨[], true⟩, []) := by
  have h := c5_output_behavior (.basic .NACHO [DispenseFluid .CHEESE] none)
    (.basic .NACHO [] none) ⟨2, 0⟩ ⟨2, 0⟩ .DOWN ⟨[(0, ⟨2, 0⟩)], false⟩
    ⟨0, .basic .NACHO [DispenseFluid .CHEESE] none, ⟨2, 0⟩, .DOWN, true⟩
    [] ⟨[], true⟩ [] rfl rfl
  exact ⟨h.1 (by rfl), h.2.2.1⟩

/-! Helper lemmas for the soft-move priority. -/

theorem minByPriority_mem : ∀ (rest : List MoveEntity) (m0 : MoveEntity),
    minByPriority m0 rest ∈ m0 :: rest := by
  intro rest
  induction rest with
  | nil => intro m0; simp [minByPriority]
  | cons r rs ih =>
    intro m0
    show minByPriority (if movePriorityIndex r.direction < movePriorityIndex m0.direction then r else m0) rs ∈ _
    rcases List.mem_cons.mp (ih (if movePriorityIndex r.direction < movePriorityIndex m0.direction then r else m0)) with h | h
    · rw [h]
      split <;> simp
    · simp [h]

theorem minByPriority_le : ∀ (rest : List MoveEntity) (m0 m : MoveEntity),
    m ∈ m0 :: rest →
    movePriorityIndex (minByPriority m0 rest).direction ≤
      movePriorityIndex m.direction := by
  intro rest
  induction rest with
  | nil =>
    intro m0 m hm
    simp at hm
    subst hm
    simp [minByPriority]
  | cons r rs ih =>
    intro m0 m hm
    have hshow : minByPriority m0 (r :: rs) =
        minByPriority (if movePriorityIndex r.direction < movePriorityIndex m0.direction then r else m0) rs := rfl
    set step := if movePriorityIndex r.direction < movePriorityIndex m0.direction then r else m0 with hstep
    have hstep_le_m0 : movePriorityIndex step.direction ≤ movePriorityIndex m0.direction := by
      rw [hstep]
      split
      · omega
      · exact le_refl _
    have hstep_le_r : movePriorityIndex step.direction ≤ movePriorityIndex r.direction := by
      rw [hstep]
      split
      · exact le_refl _
      · omega
    have hhead := ih step step (List.mem_cons_self _ _)
    rcases List.mem_cons.mp hm with hm | hm
    · subst hm
      rw [hshow]
      exact le_trans hhead hstep_le_m0
    rcases List.mem_cons.mp hm with hm | hm
    · subst hm
      rw [hshow]
      exact le_trans hhead hstep_le_r
    · rw [hshow]
      exact ih step m (List.mem_cons_of_mem _ hm)

/-- C8: several soft moves targeting the same empty, module-free cell are
resolved by accepting exactly one of them, a move of best priority in the
fixed order down, right, left, up (Python min, the earliest among ties), and
dropping the rest silently: resolution succeeds with only the winning
entity moved. -/
theorem c8_soft_move_priority (getModule : Position → Option HandleMoves)
    (st : MoveState) (dest : Position) (m0 : MoveEntity)
    (rest : List MoveEntity)
    (hmod : getModule dest = none)
    (hempty : getEntityTagAt st dest = none)
    (hsoft : ∀ m ∈ m0 :: rest, m.force = false) :
    resolve_movement getModule st dest (m0 :: rest) =
      .ok (move_entity st (minByPriority m0 rest).tag
        (minByPriority m0 rest).direction) ∧
    minByPriority m0 rest ∈ m0 :: rest ∧
    (∀ m ∈ m0 :: rest,
      movePriorityIndex (minByPriority m0 rest).direction ≤
        movePriorityIndex m.direction) := by
  have hff : (m0 :: rest).filter (fun m => m.force) = [] := by
    rw [List.filter_eq_nil_iff]
    intro a ha
    simp [hsoft a ha]
  have hof : (m0 :: rest).filter (fun m => !m.force) = m0 :: rest := by
    rw [List.filter_eq_self]
    intro a ha
    simp [hsoft a ha]
  have hall : (rest.all fun m => decide (m.force = m0.force)) = true := by
    rw [List.all_eq_true]
    intro a ha
    simp [hsoft a (List.mem_cons_of_mem _ ha),
      hsoft m0 (List.mem_cons_self _ _)]
  refine ⟨?_, minByPriority_mem rest m0, minByPriority_le rest m0⟩
  unfold resolve_movement
  rw [hff, hof]
  simp only [List.length_nil]
  rw [if_neg (by omega)]
  simp only [resolveMovementGroups, List.isEmpty_nil, List.isEmpty_cons,
    if_pos rfl, if_true, Bool.false_eq_true, if_false, hmod]
  simp only [handle_moves_to_empty, hall, hempty]
  simp [hsoft m0 (List.mem_cons_self _ _)]

/-- Witness for C8: of two soft moves into the empty cell (1, 0), the
downward one wins and is the only entity moved. -/
theorem c8_soft_move_priority_witness :
    resolve_movement (fun _ => none) ⟨[(0, ⟨1, 1⟩), (1, ⟨0, 0⟩)], false⟩ ⟨1, 0⟩
      [⟨1, .basic .NACHO [] none, ⟨0, 0⟩, .RIGHT, false⟩,
       ⟨0, .basic .NACHO [] none, ⟨1, 1⟩, .DOWN, false⟩] =
    .ok ⟨[(0, ⟨1, 0⟩), (1, ⟨0, 0⟩)], false⟩ := by
  have h := c8_soft_move_priority (fun _ => none)
    ⟨[(0, ⟨1, 1⟩), (1, ⟨0, 0⟩)], false⟩ ⟨1, 0⟩
    ⟨1, .basic .NACHO [] none, ⟨0, 0⟩, .RIGHT, false⟩
    [⟨0, .basic .NACHO [] none, ⟨1, 1⟩, .DOWN, false⟩]
    rfl rfl (by decide)
  exact h.1

/-! Helper lemmas for the forced-collision and ring theorems. -/

theorem resolveLoopScan_step (getModule : Position → Option HandleMoves)
    (st : MoveState) (byDest : Position → List MoveEntity)
    (loopMoves : List MoveEntity) (d0 : Position) (rest : List Position)
    (acc : LoopScan) :
    (∃ e, resolveLoopScan getModule st byDest loopMoves (d0 :: rest) acc = .error e) ∨
    (∃ acc2, resolveLoopScan getModule st byDest loopMoves (d0 :: rest) acc =
      resolveLoopScan getModule st byDest loopMoves rest acc2) := by
  simp only [resolveLoopScan]
  repeat' split
  all_goals
    first
      | exact Or.inl ⟨_, rfl⟩
      | exact Or.inr ⟨_, rfl⟩

theorem resolveLoopScan_error_of_forced (getModule : Position → Option HandleMoves)
    (st : MoveState) (byDest : Position → List MoveEntity)
    (loopMoves : List MoveEntity) :
    ∀ (dests : List Position) (acc : LoopScan),
      (∃ d ∈ dests, 2 ≤ ((byDest d).filter fun m => m.force).length) →
      ∃ e, resolveLoopScan getModule st byDest loopMoves dests acc = .error e := by
  intro dests
  induction dests with
  | nil =>
    intro acc hex
    obtain ⟨d, hd, _⟩ := hex
    exact absurd hd (by simp)
  | cons d0 rest ih =>
    intro acc hex
    obtain ⟨d, hd, hlen⟩ := hex
    by_cases h1 : ((byDest d0).filter fun m => m.force).length > 1
    · exact ⟨collisionStop d0 (((byDest d0).filter fun m => m.force).map fun m => m.source),
        by simp only [resolveLoopScan]; rw [if_pos h1]⟩
    · have hd_rest : d ∈ rest := by
        rcases List.mem_cons.mp hd with hd | hd
        · subst hd; omega
        · exact hd
      rcases resolveLoopScan_step getModule st byDest loopMoves d0 rest acc with
        ⟨e, he⟩ | ⟨acc2, ha⟩
      · exact ⟨e, he⟩
      · rw [ha]
        exact ih acc2 ⟨d, hd_rest, hlen⟩

/-- C2: two or more forced moves targeting one cell always raise the
collision EmergencyStop carrying the destination and the sources of the
forced moves, never a silent drop: resolve_movement raises it directly; a
ring containing such a destination never resolves successfully; and when
the colliding destination is the first the ring scan visits, the error is
exactly that collision EmergencyStop. -/
theorem c2_forced_collision (getModule : Position → Option HandleMoves)
    (st : MoveState) (dest : Position) (moves : List MoveEntity)
    (dests : List Position) (byDest : Position → List MoveEntity)
    (loopMoves : List MoveEntity) :
    (2 ≤ (moves.filter fun m => m.force).length →
      resolve_movement getModule st dest moves =
        .error (collisionStop dest ((moves.filter fun m => m.force).map fun m => m.source))) ∧
    ((∃ d ∈ dests, 2 ≤ ((byDest d).filter fun m => m.force).length) →
      ∃ e, resolve_loop getModule st dests byDest loopMoves = .error e) ∧
    (∀ (d : Position) (rest : List Position), dests = d :: rest →
      2 ≤ ((byDest d).filter fun m => m.force).length →
      ((loopMoves.map fun m => m.dest).eraseDups).length = dests.length →
      resolve_loop getModule st dests byDest loopMoves =
        .error (collisionStop d
          (((byDest d).filter fun m => m.force).map fun m => m.source))) := by
  refine ⟨?_, ?_, ?_⟩
  · intro h
    unfold resolve_movement
    rw [if_pos (by omega)]
  · intro hex
    unfold resolve_loop
    by_cases hg : ((loopMoves.map fun m => m.dest).eraseDups).length ≠ dests.length
    · rw [if_pos hg]
      exact ⟨_, rfl⟩
    · rw [if_neg hg]
      obtain ⟨e, he⟩ :=
        resolveLoopScan_error_of_forced getModule st byDest loopMoves dests
          ⟨true, [], none⟩ hex
      rw [he]
      exact ⟨e, rfl⟩
  · intro d rest hdests hlen hguard
    subst hdests
    unfold resolve_loop
    rw [if_neg (by omega)]
    simp only [resolveLoopScan]
    rw [if_pos (by omega)]

/-- Witness for C2: two forced moves into cell (1, 0) raise the collision
stop from resolve_movement, and a ring whose first destination receives two
forced moves raises it from resolve_loop. -/
theorem c2_forced_collision_witness :
    resolve_movement (fun _ => none) ⟨[(0, ⟨1, 1⟩), (1, ⟨0, 0⟩)], false⟩ ⟨1, 0⟩
      [⟨0, .basic .NACHO [] none, ⟨1, 1⟩, .DOWN, true⟩,
       ⟨1, .basic .NACHO [] none, ⟨0, 0⟩, .RIGHT, true⟩] =
    .error (collisionStop ⟨1, 0⟩ [⟨1, 1⟩, ⟨0, 0⟩]) ∧
    resolve_loop (fun _ => none) ⟨[(0, ⟨1, 1⟩), (1, ⟨0, 0⟩)], false⟩ [⟨1, 0⟩]
      (fun _ => [⟨0, .basic .NACHO [] none, ⟨1, 1⟩, .DOWN, true⟩,
                 ⟨1, .basic .NACHO [] none, ⟨0, 0⟩, .RIGHT, true⟩])
      [⟨0, .basic .NACHO [] none, ⟨1, 1⟩, .DOWN, true⟩] =
    .error (collisionStop ⟨1, 0⟩ [⟨1, 1⟩, ⟨0, 0⟩]) := by
  have h := c2_forced_collision (fun _ => none) ⟨[(0, ⟨1, 1⟩), (1, ⟨0, 0⟩)], false⟩
    ⟨1, 0⟩
    [⟨0, .basic .NACHO [] none, ⟨1, 1⟩, .DOWN, true⟩,
     ⟨1, .basic .NACHO [] none, ⟨0, 0⟩, .RIGHT, true⟩]
    [⟨1, 0⟩]
    (fun _ => [⟨0, .basic .NACHO [] none, ⟨1, 1⟩, .DOWN, true⟩,
               ⟨1, .basic .NACHO [] none, ⟨0, 0⟩, .RIGHT, true⟩])
    [⟨0, .basic .NACHO [] none, ⟨1, 1⟩, .DOWN, true⟩]
  exact ⟨h.1 (by decide), h.2.2 ⟨1, 0⟩ [] rfl (by decide) (by decide)⟩

theorem commitLoopMoves_ok (getModule : Position → Option HandleMoves)
    (ld : Option Position) :
    ∀ (ms : List MoveEntity) (st st2 : MoveState),
      commitLoopMoves getModule ld ms st = .ok st2 →
      st2 = ms.foldl (fun s m => move_entity s m.tag m.direction) st := by
  intro ms
  induction ms with
  | nil =>
    intro st st2 h
    simp [commitLoopMoves] at h
    rw [List.foldl_nil]
    exact h.symm
  | cons m tl ih =>
    intro st st2 h
    simp only [commitLoopMoves] at h
    split at h
    · exact absurd h (by simp)
    · split at h
      · exact absurd h (by simp)
      · split at h
        · exact absurd h (by simp)
        · split at h
          · exact ih _ _ h
          · exact absurd h (by simp)

theorem findTag_map_move (tag : Nat) (d : Direction) :
    ∀ (es : List (Nat × Position)) (t : Nat),
      ((es.map fun ep => if ep.1 = tag then (ep.1, ep.2.shift_by d) else ep).find?
          fun ep => ep.1 == t) =
        if t = tag then
          (es.find? fun ep => ep.1 == t).map fun ep => (ep.1, ep.2.shift_by d)
        else es.find? fun ep => ep.1 == t := by
  intro es
  induction es with
  | nil => intro t; split <;> rfl
  | cons ep tl ih =>
    intro t
    by_cases hep : ep.1 = tag
    · by_cases het : t = tag
      · subst het
        simp [List.find?, hep, List.map_cons]
      · have hne : (ep.1 == t) = false := by
          simp [hep]
          omega
        simp only [List.map_cons, if_pos hep, List.find?, hne]
        rw [ih t]
    · by_cases hfind : (ep.1 == t) = true
      · simp only [List.map_cons, if_neg hep, List.find?, hfind]
        have het2 : ¬(t = tag) := by
          simp at hfind
          omega
        simp [het2]
      · simp only [List.map_cons, if_neg hep, List.find?,
          Bool.not_eq_true] at hfind ⊢
        rw [hfind]
        exact ih t

theorem lookupPos_move_self (st : MoveState) (tag : Nat) (d : Direction) :
    lookupPos (move_entity st tag d) tag =
      (lookupPos st tag).map fun p => p.shift_by d := by
  show ((st.entities.map fun ep => if ep.1 = tag then (ep.1, ep.2.shift_by d) else ep).find?
      fun ep => ep.1 == tag).map (fun ep => ep.2) =
    ((st.entities.find? fun ep => ep.1 == tag).map (fun ep => ep.2)).map
      fun p => p.shift_by d
  rw [findTag_map_move tag d st.entities tag, if_pos rfl]
  cases st.entities.find? fun ep => ep.1 == tag <;> rfl

theorem lookupPos_move_other (st : MoveState) (tag : Nat) (d : Direction)
    (t : Nat) (h : t ≠ tag) :
    lookupPos (move_entity st tag d) t = lookupPos st t := by
  show ((st.entities.map fun ep => if ep.1 = tag then (ep.1, ep.2.shift_by d) else ep).find?
      fun ep => ep.1 == t).map (fun ep => ep.2) =
    (st.entities.find? fun ep => ep.1 == t).map (fun ep => ep.2)
  rw [findTag_map_move tag d st.entities t, if_neg h]

/-- Folding move_entity over a list of moves, the commit order of
resolve_loop. -/
def applyMoves (ms : List MoveEntity) (st : MoveState) : MoveState :=
  ms.foldl (fun s m => move_entity s m.tag m.direction) st

theorem applyMoves_spec :
    ∀ (ms : List MoveEntity) (st : MoveState),
      (ms.map fun m => m.tag).Nodup →
      (∀ m ∈ ms, lookupPos st m.tag = some m.source) →
      (∀ m ∈ ms, lookupPos (applyMoves ms st) m.tag =
        some (m.source.shift_by m.direction)) ∧
      (∀ t : Nat, (∀ m ∈ ms, m.tag ≠ t) →
        lookupPos (applyMoves ms st) t = lookupPos st t) ∧
      (applyMoves ms st).successful_output = st.successful_output := by
  intro ms
  induction ms with
  | nil =>
    intro st _ _
    exact ⟨fun m hm => absurd hm (by simp), fun t _ => rfl, rfl⟩
  | cons m tl ih =>
    intro st hnodup hpos
    have hn2 : (∀ x ∈ tl, ¬ x.tag = m.tag) ∧ (tl.map fun m2 => m2.tag).Nodup := by
      simpa using hnodup
    have hnotin : m.tag ∉ tl.map fun m2 => m2.tag := by
      intro hmem
      obtain ⟨x, hx, hxe⟩ := List.mem_map.mp hmem
      exact hn2.1 x hx hxe
    have hnodup_tl : (tl.map fun m2 => m2.tag).Nodup := hn2.2
    have happly : applyMoves (m :: tl) st =
        applyMoves tl (move_entity st m.tag m.direction) := rfl
    have hpos_tl : ∀ m2 ∈ tl,
        lookupPos (move_entity st m.tag m.direction) m2.tag = some m2.source := by
      intro m2 hm2
      have hne : m2.tag ≠ m.tag := by
        intro hcontra
        exact hnotin (hcontra ▸ List.mem_map_of_mem _ hm2)
      rw [lookupPos_move_other st m.tag m.direction m2.tag hne]
      exact hpos m2 (List.mem_cons_of_mem _ hm2)
    obtain ⟨ha, hb, hc⟩ := ih (move_entity st m.tag m.direction) hnodup_tl hpos_tl
    refine ⟨?_, ?_, ?_⟩
    · intro m2 hm2
      rcases List.mem_cons.mp hm2 with hm2 | hm2
      · subst hm2
        rw [happly, hb m2.tag ?_]
        · rw [lookupPos_move_self, hpos m2 (List.mem_cons_self _ _)]
          rfl
        · intro m3 hm3
          intro hcontra
          exact hnotin (hcontra ▸ List.mem_map_of_mem _ hm3)
      · exact happly ▸ ha m2 hm2
    · intro t ht
      rw [happly, hb t (fun m3 hm3 => ht m3 (List.mem_cons_of_mem _ hm3))]
      exact lookupPos_move_other st m.tag m.direction t
        (Ne.symm (ht m (List.mem_cons_self _ _)))
    · rw [happly]
      exact hc

/-- C1: ring atomicity of movement resolution.  Whenever resolve_loop
returns a state (rather than an error), that state is either the input
state with nothing moved, or the state in which every entity of the ring
has advanced exactly one cell in its move direction while every entity
outside the ring is untouched; no partial commit of the ring is ever
returned. -/
theorem c1_ring_atomicity (getModule : Position → Option HandleMoves)
    (st st2 : MoveState) (dests : List Position)
    (byDest : Position → List MoveEntity) (loopMoves : List MoveEntity)
    (hpos : ∀ m ∈ loopMoves, lookupPos st m.tag = some m.source)
    (hnodup : (loopMoves.map fun m => m.tag).Nodup)
    (hok : resolve_loop getModule st dests byDest loopMoves = .ok st2) :
    st2 = st ∨
    ((∀ m ∈ loopMoves, lookupPos st2 m.tag =
        some (m.source.shift_by m.direction)) ∧
      (∀ t : Nat, (∀ m ∈ loopMoves, m.tag ≠ t) →
        lookupPos st2 t = lookupPos st t) ∧
      st2.successful_output = st.successful_output) := by
  unfold resolve_loop at hok
  by_cases hg : ((loopMoves.map fun m => m.dest).eraseDups).length ≠ dests.length
  · rw [if_pos hg] at hok
    exact absurd hok (by simp)
  · rw [if_neg hg] at hok
    split at hok
    · exact absurd hok (by simp)
    · rename_i scan hscan
      split at hok
      · split at hok
        · rename_i hdm hperm
          have hp : scan.accepted_moves.Perm loopMoves := List.isPerm_iff.mp hperm
          have heq := commitLoopMoves_ok getModule scan.lastDest
            scan.accepted_moves st st2 hok
          right
          have hnodup_acc : (scan.accepted_moves.map fun m => m.tag).Nodup :=
            ((hp.map fun m => m.tag).nodup_iff).mpr hnodup
          have hpos_acc : ∀ m ∈ scan.accepted_moves,
              lookupPos st m.tag = some m.source :=
            fun m hm => hpos m (hp.mem_iff.mp hm)
          obtain ⟨ha, hb, hc⟩ :=
            applyMoves_spec scan.accepted_moves st hnodup_acc hpos_acc
          have hst2 : st2 = applyMoves scan.accepted_moves st := heq
          refine ⟨?_, ?_, ?_⟩
          · intro m hm
            rw [hst2]
            exact ha m (hp.mem_iff.mpr hm)
          · intro t ht
            rw [hst2]
            exact hb t (fun m3 hm3 => ht m3 (hp.mem_iff.mp hm3))
          · rw [hst2]
            exact hc
        · exact absurd hok (by simp)
      · left
        cases hok
        rfl

/-- Witness for C1: a two-cell ring commits atomically, both entities
advancing one cell. -/
theorem c1_ring_atomicity_witness :
    resolve_loop
      (fun _ => some (fun _ _ g _ _ => .ok g.head?))
      ⟨[(0, ⟨0, 0⟩), (1, ⟨1, 0⟩)], false⟩
      [⟨1, 0⟩, ⟨0, 0⟩]
      (fun p => if p = ⟨1, 0⟩ then
          [⟨0, .basic .NACHO [] none, ⟨0, 0⟩, .RIGHT, true⟩]
        else [⟨1, .basic .NACHO [] none, ⟨1, 0⟩, .LEFT, true⟩])
      [⟨0, .basic .NACHO [] none, ⟨0, 0⟩, .RIGHT, true⟩,
       ⟨1, .basic .NACHO [] none, ⟨1, 0⟩, .LEFT, true⟩] =
      .ok ⟨[(0, ⟨1, 0⟩), (1, ⟨0, 0⟩)], false⟩ ∧
    lookupPos ⟨[(0, ⟨1, 0⟩), (1, ⟨0, 0⟩)], false⟩ 0 = some ⟨1, 0⟩ ∧
    lookupPos ⟨[(0, ⟨1, 0⟩), (1, ⟨0, 0⟩)], false⟩ 1 = some ⟨0, 0⟩ := by
  have hres : resolve_loop
      (fun _ => some (fun _ _ g _ _ => .ok g.head?))
      ⟨[(0, ⟨0, 0⟩), (1, ⟨1, 0⟩)], false⟩
      [⟨1, 0⟩, ⟨0, 0⟩]
      (fun p => if p = ⟨1, 0⟩ then
          [⟨0, .basic .NACHO [] none, ⟨0, 0⟩, .RIGHT, true⟩]
        else [⟨1, .basic .NACHO [] none, ⟨1, 0⟩, .LEFT, true⟩])
      [⟨0, .basic .NACHO [] none, ⟨0, 0⟩, .RIGHT, true⟩,
       ⟨1, .basic .NACHO [] none, ⟨1, 0⟩, .LEFT, true⟩] =
      .ok ⟨[(0, ⟨1, 0⟩), (1, ⟨0, 0⟩)], false⟩ := by rfl
  have h := c1_ring_atomicity
    (fun _ => some (fun _ _ g _ _ => .ok g.head?))
    ⟨[(0, ⟨0, 0⟩), (1, ⟨1, 0⟩)], false⟩
    ⟨[(0, ⟨1, 0⟩), (1, ⟨0, 0⟩)], false⟩
    [⟨1, 0⟩, ⟨0, 0⟩]
    (fun p => if p = ⟨1, 0⟩ then
        [⟨0, .basic .NACHO [] none, ⟨0, 0⟩, .RIGHT, true⟩]
      else [⟨1, .basic .NACHO [] none, ⟨1, 0⟩, .LEFT, true⟩])
    [⟨0, .basic .NACHO [] none, ⟨0, 0⟩, .RIGHT, true⟩,
     ⟨1, .basic .NACHO [] none, ⟨1, 0⟩, .LEFT, true⟩]
    (by decide) (by decide) hres
  refine ⟨hres, ?_, ?_⟩
  · rcases h with h | h
    · exact absurd h (by decide)
    · exact h.1 ⟨0, .basic .NACHO [] none, ⟨0, 0⟩, .RIGHT, true⟩ (by simp)
  · rcases h with h | h
    · exact absurd h (by decide)
    · exact h.1 ⟨1, .basic .NACHO [] none, ⟨1, 0⟩, .LEFT, true⟩ (by simp)

/-- The stored tick of a fingerprint in the seen-states history
(OrderedDict membership plus value lookup in simulate_order). -/
def lookupSeen (seen : List (DVal × Nat)) (key : DVal) : Option Nat :=
  (seen.find? fun kv => kv.1 == key).map fun kv => kv.2

/-- C3: after the signal latch of a tick, simulate_order fingerprints the
state with State.dump (module internal states, entity substructures and
positions, the success flag); if the fingerprint equals one of the at most
1000 most recently recorded fingerprints it raises TimeLimitExceeded
annotated with (earlier tick, current tick), whose message reads deadlock
exactly when the repeat distance is 1 and loop (from the earlier tick) when
it is greater; on a fresh fingerprint the history is extended and trimmed
so it keeps at most 1000 entries. -/
theorem c3_loop_detection {σ : Type} (ph : TickPhases σ) (st0 : σ)
    (seen : List (DVal × Nat)) (timeLimit : Int) (st2 : σ) (t0 : Nat)
    (mods : σ → List DVal) (ents : σ → List (Nat × Entity × Position))
    (succ : σ → Bool)
    (hdump : ∀ s, ph.dump s = stateDump (mods s) (ents s) (succ s))
    (hlen : seen.length ≤ maxCycleLength)
    (htick : ph.tickAndMove (ph.incrementTime st0) = .ok st2)
    (hfin : ph.isFinished (ph.updateSenseSignals st2) = false) :
    (lookupSeen seen
        (stateDump (mods (ph.propagateSignals (ph.updateSenseSignals st2)))
          (ents (ph.propagateSignals (ph.updateSenseSignals st2)))
          (succ (ph.propagateSignals (ph.updateSenseSignals st2)))) = some t0 →
      simTickStep ph st0 seen timeLimit =
        .error (.timeLimitExceeded
          (some (t0, ph.time (ph.propagateSignals (ph.updateSenseSignals st2)))))) ∧
    (t0 + 1 = ph.time (ph.propagateSignals (ph.updateSenseSignals st2)) →
      tleMessage (some (t0, ph.time (ph.propagateSignals (ph.updateSenseSignals st2)))) =
        "Time limit exceeded (deadlock detected).") ∧
    (t0 + 1 ≠ ph.time (ph.propagateSignals (ph.updateSenseSignals st2)) →
      tleMessage (some (t0, ph.time (ph.propagateSignals (ph.updateSenseSignals st2)))) =
        "Time limit exceeded (loop detected from " ++ toString t0 ++ ")." ) ∧
    (lookupSeen seen
        (stateDump (mods (ph.propagateSignals (ph.updateSenseSignals st2)))
          (ents (ph.propagateSignals (ph.updateSenseSignals st2)))
          (succ (ph.propagateSignals (ph.updateSenseSignals st2)))) = none →
      ¬(timeLimit ≠ -1 ∧
        (Int.ofNat (ph.time (ph.propagateSignals (ph.updateSenseSignals st2)))) ≥ timeLimit) →
      ∃ seen3, simTickStep ph st0 seen timeLimit =
          .ok (.continueSim (ph.propagateSignals (ph.updateSenseSignals st2)) seen3) ∧
        seen3.length ≤ maxCycleLength) := by
  have hkey := hdump (ph.propagateSignals (ph.updateSenseSignals st2))
  refine ⟨?_, ?_, ?_, ?_⟩
  · intro hhit
    simp only [simTickStep]
    rw [htick]
    simp only [hfin, Bool.false_eq_true, if_false]
    rw [hkey]
    obtain ⟨kv, hfind, ht⟩ := Option.map_eq_some.mp hhit
    rw [hfind]
    subst ht
    rfl
  · intro hdist
    simp only [tleMessage]
    rw [if_pos hdist]
  · intro hdist
    simp only [tleMessage]
    rw [if_neg hdist]
  · intro hmiss hbudget
    simp only [simTickStep]
    rw [htick]
    simp only [hfin, Bool.false_eq_true, if_false]
    rw [hkey]
    have hfind : (seen.find? fun kv =>
        kv.1 == stateDump (mods (ph.propagateSignals (ph.updateSenseSignals st2)))
          (ents (ph.propagateSignals (ph.updateSenseSignals st2)))
          (succ (ph.propagateSignals (ph.updateSenseSignals st2)))) = none := by
      unfold lookupSeen at hmiss
      exact Option.map_eq_none.mp hmiss
    rw [hfind]
    rw [if_neg hbudget]
    refine ⟨_, rfl, ?_⟩
    split
    · rename_i hgt
      rw [List.length_drop]
      rw [List.length_append] at hgt ⊢
      simp at hgt ⊢
      omega
    · rename_i hle
      rw [List.length_append] at hle ⊢
      simp at hle ⊢
      omega

/-- Witness for C3: with a one-entry history holding the fingerprint of the
post-latch state recorded at tick 4 and the current tick 5, the step raises
the TimeLimitExceeded with loop bounds (4, 5), described as a deadlock. -/
theorem c3_loop_detection_witness :
    simTickStep
      (⟨id, fun _ => .ok (), id, fun _ => false, id,
        fun _ => stateDump [] [] false, fun _ => 5⟩ : TickPhases Unit)
      () [(stateDump [] [] false, 4)] (-1) =
      .error (.timeLimitExceeded (some (4, 5))) ∧
    tleMessage (some (4, 5)) = "Time limit exceeded (deadlock detected)." := by
  have h := c3_loop_detection
    (⟨id, fun _ => .ok (), id, fun _ => false, id,
      fun _ => stateDump [] [] false, fun _ => 5⟩ : TickPhases Unit)
    () [(stateDump [] [] false, 4)] (-1) () 4
    (fun _ => []) (fun _ => []) (fun _ => false)
    (fun _ => rfl) (by decide) rfl rfl
  exact ⟨h.1 rfl, h.2.1 rfl⟩

/-! Helper lemmas for the slicer modules. -/

theorem back_relative_to_self (d : Direction) :
    (d.back).relative_to d = .BACK := by
  cases d <;> rfl

theorem defaultHandleMoves_single_back (d : Direction) (p : Position)
    (m : MoveEntity) (h : m.direction = d) :
    defaultHandleMoves [.BACK] d p [m] = .ok m := by
  obtain ⟨t, e, s, dir, f⟩ := m
  cases h
  cases dir <;> rfl

/-- C7 (amended): slicer behaviour per module and level.  On Cafe Triste
and Sushi Yeah the double slicer removes the occupant and spawns two fresh
halved entities, queued rightward and leftward; on Sweet Heat BBQ it keeps
the original occupant as the left piece and spawns exactly one new slice
queued rightward; the triple slicer removes a whole chicken and spawns
three pieces queued right, front and left (a half chicken yields two
pieces, with Da Wings swapping the cutlet and the leg); the horizontal
slicer removes a bun and spawns the bottom half right and the top half
left; the right, front and left neighbours of a cell are pairwise distinct
adjacent cells; an entering move that fails a slicer whitelist raises the
EmergencyStop carrying the slicer position and the move source. -/
theorem c7_slicer_behavior :
    (∀ (L : LevelId) (d : Direction) (p : Position) (st : FloorState)
        (tag : Nat) (occ : Entity) (eid : EntityId),
      L = .CAFE_TRISTE ∨ L = .SUSHI_YEAH →
      floorGetAt st p = some (tag, occ) →
      doubleSlicerLookup L occ.id = some eid →
      doubleSlicerTick L d p st = .ok
        ⟨st.nextTag + 2,
         (st.entities.filter fun e => e.1 ≠ tag) ++
           [(st.nextTag, .basic eid [] none, p),
            (st.nextTag + 1, .basic eid [] none, p)],
         st.queued ++ [(st.nextTag, d.right, true),
                       (st.nextTag + 1, d.left, true)]⟩) ∧
    (∀ (d : Direction) (p : Position) (st : FloorState) (tag : Nat)
        (occ : Entity) (eid : EntityId),
      floorGetAt st p = some (tag, occ) →
      doubleSlicerLookup .SWEET_HEAT_BBQ occ.id = some eid →
      doubleSlicerTick .SWEET_HEAT_BBQ d p st = .ok
        ⟨st.nextTag + 1,
         st.entities ++ [(st.nextTag, .basic eid [] none, p)],
         st.queued ++ [(st.nextTag, d.right, true), (tag, d.left, true)]⟩) ∧
    (∀ (L : LevelId) (d : Direction) (p : Position) (st : FloorState)
        (tag : Nat) (occ : Entity),
      floorGetAt st p = some (tag, occ) →
      occ.id = .CHICKEN →
      tripleSlicerTick L d p st = .ok
        ⟨st.nextTag + 3,
         (st.entities.filter fun e => e.1 ≠ tag) ++
           [(st.nextTag, .basic .CHICKEN_LEG [] none, p),
            (st.nextTag + 1, .basic .CHICKEN_CUTLET [] none, p),
            (st.nextTag + 2, .basic .CHICKEN_HALF [] none, p)],
         st.queued ++ [(st.nextTag, d.right, true), (st.nextTag + 1, d, true),
                       (st.nextTag + 2, d.left, true)]⟩) ∧
    (∀ (L : LevelId) (d : Direction) (p : Position) (st : FloorState)
        (tag : Nat) (occ : Entity),
      floorGetAt st p = some (tag, occ) →
      occ.id = .CHICKEN_HALF →
      tripleSlicerTick L d p st = .ok
        ⟨st.nextTag + 2,
         (st.entities.filter fun e => e.1 ≠ tag) ++
           [(st.nextTag,
             (if L = .DA_WINGS then Entity.basic .CHICKEN_CUTLET [] none
              else .basic .CHICKEN_LEG [] none), p),
            (st.nextTag + 1,
             (if L = .DA_WINGS then Entity.basic .CHICKEN_LEG [] none
              else .basic .CHICKEN_CUTLET [] none), p)],
         st.queued ++ [(st.nextTag, d.right, true),
                       (st.nextTag + 1, d, true)]⟩) ∧
    (∀ (d : Direction) (p : Position) (st : FloorState) (tag : Nat)
        (occ : Entity),
      floorGetAt st p = some (tag, occ) →
      occ.id = .BUN →
      horizontalSlicerTick d p st = .ok
        ⟨st.nextTag + 2,
         (st.entities.filter fun e => e.1 ≠ tag) ++
           [(st.nextTag, .basic .BUN_BOTTOM [] none, p),
            (st.nextTag + 1, .basic .BUN_TOP [] none, p)],
         st.queued ++ [(st.nextTag, d.right, true),
                       (st.nextTag + 1, d.left, true)]⟩) ∧
    (∀ (d : Direction) (p : Position),
      p.shift_by d.right ≠ p.shift_by d.left ∧
      p.shift_by d.right ≠ p.shift_by d ∧
      p.shift_by d ≠ p.shift_by d.left) ∧
    (∀ (L : LevelId) (d : Direction) (p : Position) (m : MoveEntity),
      m.direction = d →
      ((¬ m.entity.operations.isEmpty ∨ m.entity.stack.isSome) ∨
        ¬ doubleSlicerLevel L ∨ (doubleSlicerLookup L m.entity.id).isNone) →
      doubleSlicerHandleMoves L d p [m] =
        .error (.emergencyStop "This product cannot be sliced." [p, m.source])) ∧
    (∀ (d : Direction) (p : Position) (m : MoveEntity),
      m.direction = d →
      (¬ (m.entity.id = .CHICKEN ∨ m.entity.id = .CHICKEN_HALF) ∨
        (¬ m.entity.operations.isEmpty ∨ m.entity.stack.isSome)) →
      tripleSlicerHandleMoves d p [m] =
        .error (.emergencyStop "This product cannot be sliced." [p, m.source])) ∧
    (∀ (d : Direction) (p : Position) (m : MoveEntity),
      m.direction = d →
      (m.entity.id ≠ .BUN ∨
        (¬ m.entity.operations.isEmpty ∨ m.entity.stack.isSome)) →
      horizontalSlicerHandleMoves d p [m] =
        .error (.emergencyStop "This product cannot be sliced." [p, m.source])) := by
  refine ⟨?_, ?_, ?_, ?_, ?_, ?_, ?_, ?_, ?_⟩
  · intro L d p st tag occ eid hlev hget hlook
    rcases hlev with rfl | rfl <;>
      simp [doubleSlicerTick, hget, hlook, floorRemove, floorAdd, queueMove]
  · intro d p st tag occ eid hget hlook
    simp [doubleSlicerTick, hget, hlook, floorAdd, queueMove]
  · intro L d p st tag occ hget hid
    simp [tripleSlicerTick, hget, hid, floorRemove, floorAdd, queueMove]
  · intro L d p st tag occ hget hid
    by_cases hw : L = .DA_WINGS <;>
      simp [tripleSlicerTick, hget, hid, hw, floorRemove, floorAdd, queueMove]
  · intro d p st tag occ hget hid
    simp [horizontalSlicerTick, hget, hid, floorRemove, floorAdd, queueMove]
  · intro d p
    cases d <;>
      refine ⟨fun h => ?_, fun h => ?_, fun h => ?_⟩ <;>
      · simp only [Direction.right, Direction.left, Position.shift_by,
          Position.mk.injEq] at h
        omega
  · intro L d p m hdir hfail
    have hdef := defaultHandleMoves_single_back d p m hdir
    simp only [doubleSlicerHandleMoves, hdef]
    by_cases hO : ¬ m.entity.operations.isEmpty ∨ m.entity.stack.isSome
    · rw [if_pos hO]
    · rw [if_neg hO]
      by_cases hL : doubleSlicerLevel L = true
      · rw [if_neg (not_not_intro hL)]
        by_cases hN : (doubleSlicerLookup L m.entity.id).isNone = true
        · rw [if_pos hN]
        · rcases hfail with h | h | h
          · exact absurd h hO
          · exact absurd hL h
          · exact absurd h hN
      · rw [if_pos hL]
  · intro d p m hdir hfail
    have hdef := defaultHandleMoves_single_back d p m hdir
    simp only [tripleSlicerHandleMoves, hdef]
    by_cases hI : m.entity.id = .CHICKEN ∨ m.entity.id = .CHICKEN_HALF
    · rw [if_neg (not_not_intro hI)]
      by_cases hO : ¬ m.entity.operations.isEmpty ∨ m.entity.stack.isSome
      · rw [if_pos hO]
      · rcases hfail with h | h
        · exact absurd hI h
        · exact absurd h hO
    · rw [if_pos hI]
  · intro d p m hdir hfail
    have hdef := defaultHandleMoves_single_back d p m hdir
    simp only [horizontalSlicerHandleMoves, hdef]
    by_cases hI : m.entity.id = .BUN
    · rw [if_neg (not_not_intro hI)]
      by_cases hO : ¬ m.entity.operations.isEmpty ∨ m.entity.stack.isSome
      · rw [if_pos hO]
      · rcases hfail with h | h
        · exact absurd hI h
        · exact absurd h hO
    · rw [if_pos hI]

/-- Witness for C7 (amended): a cigarette block on Cafe Triste is removed
and becomes two halves queued right and left; a whole chicken is removed
and becomes three pieces queued right, front and left; a roast with a grill
operation is rejected by the double slicer whitelist. -/
theorem c7_slicer_behavior_witness :
    doubleSlicerTick .CAFE_TRISTE .UP ⟨2, 3⟩
        ⟨1, [(0, .basic .CIGARETTE_4X [] none, ⟨2, 3⟩)], []⟩ = .ok
      ⟨3, [(1, .basic .CIGARETTE_2X [] none, ⟨2, 3⟩),
           (2, .basic .CIGARETTE_2X [] none, ⟨2, 3⟩)],
       [(1, .RIGHT, true), (2, .LEFT, true)]⟩ ∧
    tripleSlicerTick .DA_WINGS .UP ⟨2, 3⟩
        ⟨1, [(0, .basic .CHICKEN [] none, ⟨2, 3⟩)], []⟩ = .ok
      ⟨4, [(1, .basic .CHICKEN_LEG [] none, ⟨2, 3⟩),
           (2, .basic .CHICKEN_CUTLET [] none, ⟨2, 3⟩),
           (3, .basic .CHICKEN_HALF [] none, ⟨2, 3⟩)],
       [(1, .RIGHT, true), (2, .UP, true), (3, .LEFT, true)]⟩ ∧
    doubleSlicerHandleMoves .SWEET_HEAT_BBQ .UP ⟨2, 3⟩
        [⟨0, .basic .ROAST [CookGrill] none, ⟨2, 2⟩, .UP, true⟩] =
      .error (.emergencyStop "This product cannot be sliced."
        [⟨2, 3⟩, ⟨2, 2⟩]) := by
  refine ⟨?_, ?_, ?_⟩
  · have h := c7_slicer_behavior.1 .CAFE_TRISTE .UP ⟨2, 3⟩
      ⟨1, [(0, .basic .CIGARETTE_4X [] none, ⟨2, 3⟩)], []⟩ 0
      (.basic .CIGARETTE_4X [] none) .CIGARETTE_2X (Or.inl rfl) rfl rfl
    simpa using h
  · have h := c7_slicer_behavior.2.2.1 .DA_WINGS .UP ⟨2, 3⟩
      ⟨1, [(0, .basic .CHICKEN [] none, ⟨2, 3⟩)], []⟩ 0
      (.basic .CHICKEN [] none) rfl rfl
    simpa using h
  · exact c7_slicer_behavior.2.2.2.2.2.2.1 .SWEET_HEAT_BBQ .UP ⟨2, 3⟩
      ⟨0, .basic .ROAST [CookGrill] none, ⟨2, 2⟩, .UP, true⟩ rfl
      (Or.inl (Or.inl (by decide)))

end FoodcourtSim
